import Mathlib

/-!
Shallow embedding of the stock-prediction core of this repository:
`backend/features/feature_engineer.py`, `backend/models/predictor.py`,
`backend/utils/trading_days.py`.

Pandas floating-point scalars are modelled by `PVal`: a rational number,
NaN, or a signed infinity.  A DataFrame is a row count together with a
list of named columns, each column a total function from row index to
scalar; this mirrors pandas' index-aligned column arithmetic.  The real
square root (used only inside rolling standard deviations, which no
claim's truth depends on) is abstracted as a parameter `FloatOps`.
-/

namespace StockPred

/-- A pandas/numpy scalar: a finite value (rational standing in for the
float), NaN, or a signed infinity. -/
inductive PVal where
  | num (q : ℚ)
  | nan
  | pinf
  | ninf
deriving DecidableEq, Repr

namespace PVal

/-- NaN test (`pd.isna` on a scalar). -/
def isNaN : PVal → Bool
  | nan => true
  | _ => false

/-- `pd.notna`: infinities count as defined. -/
def isDefined (v : PVal) : Bool := !v.isNaN

/-- IEEE-style negation. -/
def neg : PVal → PVal
  | num q => num (-q)
  | nan => nan
  | pinf => ninf
  | ninf => pinf

/-- IEEE-style addition: NaN propagates, `+∞ + -∞ = NaN`. -/
def add : PVal → PVal → PVal
  | nan, _ => nan
  | _, nan => nan
  | num a, num b => num (a + b)
  | num _, pinf => pinf
  | pinf, num _ => pinf
  | num _, ninf => ninf
  | ninf, num _ => ninf
  | pinf, pinf => pinf
  | ninf, ninf => ninf
  | pinf, ninf => nan
  | ninf, pinf => nan

/-- IEEE-style subtraction. -/
def sub (a b : PVal) : PVal := add a (neg b)

/-- IEEE-style multiplication: `±∞ × 0 = NaN`. -/
def mul : PVal → PVal → PVal
  | nan, _ => nan
  | _, nan => nan
  | num a, num b => num (a * b)
  | num a, pinf => if 0 < a then pinf else if a < 0 then ninf else nan
  | pinf, num a => if 0 < a then pinf else if a < 0 then ninf else nan
  | num a, ninf => if 0 < a then ninf else if a < 0 then pinf else nan
  | ninf, num a => if 0 < a then ninf else if a < 0 then pinf else nan
  | pinf, pinf => pinf
  | ninf, ninf => pinf
  | pinf, ninf => ninf
  | ninf, pinf => ninf

/-- IEEE-style division as numpy/pandas produce it: `x/0 = ±∞` for
`x ≠ 0`, `0/0 = NaN`, `x/±∞ = 0`, `∞/∞ = NaN`. -/
def div : PVal → PVal → PVal
  | nan, _ => nan
  | _, nan => nan
  | num a, num b =>
      if b = 0 then (if a = 0 then nan else if 0 < a then pinf else ninf)
      else num (a / b)
  | num _, pinf => num 0
  | num _, ninf => num 0
  | pinf, num b => if 0 ≤ b then pinf else ninf
  | ninf, num b => if 0 ≤ b then ninf else pinf
  | pinf, pinf => nan
  | pinf, ninf => nan
  | ninf, pinf => nan
  | ninf, ninf => nan

/-- Absolute value. -/
def abs : PVal → PVal
  | num q => num |q|
  | nan => nan
  | pinf => pinf
  | ninf => pinf

/-- Strict `>` with NaN comparing false, as in pandas boolean columns. -/
def gt : PVal → PVal → Bool
  | nan, _ => false
  | _, nan => false
  | num a, num b => b < a
  | pinf, pinf => false
  | pinf, _ => true
  | _, pinf => false
  | ninf, _ => false
  | _, ninf => true

/-- Strict `<` with NaN comparing false. -/
def lt (a b : PVal) : Bool := gt b a

/-- Binary maximum ignoring neither argument (both non-NaN callers). -/
def max2 (a b : PVal) : PVal := if gt a b then a else b

/-- Binary minimum. -/
def min2 (a b : PVal) : PVal := if lt a b then a else b

instance : Add PVal := ⟨add⟩
instance : Sub PVal := ⟨sub⟩
instance : Mul PVal := ⟨mul⟩
instance : Div PVal := ⟨div⟩
instance : Neg PVal := ⟨neg⟩

/-- Sum of a list of scalars starting from 0 (numpy sum over non-NaN
values; callers pre-filter NaN). -/
def listSum (vs : List PVal) : PVal := vs.foldl add (num 0)

/-- Mean of a non-empty pre-filtered list. -/
def listMean (vs : List PVal) : PVal := div (listSum vs) (num vs.length)

/-- Maximum of a pre-filtered list (NaN if empty, as pandas rolling max
with zero observations). -/
def listMax : List PVal → PVal
  | [] => nan
  | v :: vs => vs.foldl max2 v

/-- Minimum of a pre-filtered list. -/
def listMin : List PVal → PVal
  | [] => nan
  | v :: vs => vs.foldl min2 v

end PVal

/-- The rational-valued stand-ins for the few genuinely real-valued float
operations (square root inside standard deviations).  Faithfulness note:
only NaN-structure and column membership matter to the claims below, and
`sqrt` maps defined values to defined values, so every theorem quantifies
over an arbitrary `FloatOps`. -/
structure FloatOps where
  sqrt : ℚ → ℚ

/-- A DataFrame column over `n` rows. -/
def Col (n : ℕ) := Fin n → PVal

/-- Total ℕ-indexed read of a column; out-of-range reads give NaN
(mirrors positional alignment where a shifted index has no row). -/
def Col.at {n : ℕ} (c : Col n) (k : ℕ) : PVal :=
  if h : k < n then c ⟨k, h⟩ else PVal.nan

/-- The constant (broadcast scalar) column. -/
def constCol (n : ℕ) (q : ℚ) : Col n := fun _ => PVal.num q

/-- The named columns of an `n`-row DataFrame, in order. -/
abbrev Frame (n : ℕ) := List (String × Col n)

/-- Column lookup in a frame. -/
def findColF {n : ℕ} (fr : Frame n) (name : String) : Option (Col n) :=
  (fr.find? (fun p => p.1 = name)).map Prod.snd

/-- `name in df.columns`. -/
def hasColF {n : ℕ} (fr : Frame n) (name : String) : Bool := (findColF fr name).isSome

/-- Column read defaulting to an all-NaN column when absent (callers
guard with `hasColF` where the Python would raise `KeyError`). -/
def getColF {n : ℕ} (fr : Frame n) (name : String) : Col n :=
  (findColF fr name).getD (fun _ => PVal.nan)

/-- `df[name] = col`: pandas keeps an existing column's position and
appends new columns at the end. -/
def setColF {n : ℕ} : Frame n → String → Col n → Frame n
  | [], nm, c => [(nm, c)]
  | (nm', c') :: rest, nm, c =>
      if nm' = nm then (nm, c) :: rest else (nm', c') :: setColF rest nm c

/-- A pandas DataFrame: a row count and named columns in order. -/
structure DF where
  n : ℕ
  cols : Frame n

namespace DF

/-- `df.columns` as a name list. -/
def colNames (df : DF) : List String := df.cols.map Prod.fst

/-- Column lookup. -/
def get? (df : DF) (name : String) : Option (Col df.n) := findColF df.cols name

/-- `name in df.columns`. -/
def hasCol (df : DF) (name : String) : Bool := hasColF df.cols name

/-- Column read defaulting to an all-NaN column when absent. -/
def getCol (df : DF) (name : String) : Col df.n := getColF df.cols name

/-- `df[name] = col`. -/
def setCol (df : DF) (nm : String) (c : Col df.n) : DF :=
  ⟨df.n, setColF df.cols nm c⟩

/-- `df.dropna`-style row filtering: keep the rows where `keep` holds,
in order.  Surviving row `j` of the result reads row `ks[j]` of the
original. -/
def filterRows (df : DF) (keep : ℕ → Bool) : DF :=
  let ks := (List.range df.n).filter keep
  ⟨ks.length, df.cols.map (fun p => (p.1, fun j => Col.at p.2 (ks.getD j.val 0)))⟩

end DF

/-- `series.shift(p)`: row `i` reads row `i - p` (so a negative `p` is a
forward shift reading `i + |p|`), NaN where that row does not exist. -/
def shiftCol {n : ℕ} (p : ℤ) (c : Col n) : Col n := fun i =>
  let j : ℤ := (i : ℤ) - p
  if h : 0 ≤ j ∧ j < n then c ⟨j.toNat, by omega⟩ else PVal.nan

/-- Pointwise binary lift. -/
def colMap2 {n : ℕ} (f : PVal → PVal → PVal) (a b : Col n) : Col n :=
  fun i => f (a i) (b i)

/-- Pointwise unary lift. -/
def colMap {n : ℕ} (f : PVal → PVal) (a : Col n) : Col n := fun i => f (a i)

/-- `a - b` columnwise. -/
def colSub {n : ℕ} (a b : Col n) : Col n := colMap2 PVal.sub a b

/-- `a + b` columnwise. -/
def colAdd {n : ℕ} (a b : Col n) : Col n := colMap2 PVal.add a b

/-- `a * b` columnwise. -/
def colMul {n : ℕ} (a b : Col n) : Col n := colMap2 PVal.mul a b

/-- `a / b` columnwise. -/
def colDiv {n : ℕ} (a b : Col n) : Col n := colMap2 PVal.div a b

/-- Scalar multiple. -/
def colScale {n : ℕ} (q : ℚ) (c : Col n) : Col n := colMap (PVal.mul (PVal.num q)) c

/-- Scalar offset. -/
def colAddConst {n : ℕ} (q : ℚ) (c : Col n) : Col n := colMap (PVal.add (PVal.num q)) c

/-- `series.where(cond, other)`: keep the value where the boolean holds,
else the scalar `other`; a NaN in the condition operands makes the
comparison false, as in pandas. -/
def colWhere {n : ℕ} (c : Col n) (cond : Fin n → Bool) (other : ℚ) : Col n :=
  fun i => if cond i then c i else PVal.num other

/-- Boolean column to 0/1 ints (`astype(int)`). -/
def boolCol {n : ℕ} (b : Fin n → Bool) : Col n :=
  fun i => if b i then PVal.num 1 else PVal.num 0

/-- `series.ffill()`: the nearest prior non-NaN value. -/
def ffillCol {n : ℕ} (c : Col n) : Col n := fun i =>
  ((List.range (i.val + 1)).findSome? (fun k =>
      let v := Col.at c (i.val - k)
      if v.isNaN then none else some v)).getD PVal.nan

/-- `series.bfill()`: the nearest subsequent non-NaN value. -/
def bfillCol {n : ℕ} (c : Col n) : Col n := fun i =>
  ((List.range (n - i.val)).findSome? (fun k =>
      let v := Col.at c (i.val + k)
      if v.isNaN then none else some v)).getD PVal.nan

/-- The non-NaN values inside the trailing window of width `w` ending at
row `i` (pandas rolling windows count only non-NaN observations). -/
def windowVals {n : ℕ} (w : ℕ) (c : Col n) (i : Fin n) : List PVal :=
  (List.range w).filterMap (fun k =>
    if k ≤ i.val then
      let v := Col.at c (i.val - k)
      if v.isNaN then none else some v
    else none)

/-- `series.rolling(w, min_periods=minp).agg(f)`: NaN when fewer than
`minp` observations, else the aggregate of the observations. -/
def rollingAgg {n : ℕ} (w minp : ℕ) (f : List PVal → PVal) (c : Col n) : Col n :=
  fun i =>
    let vs := windowVals w c i
    if vs.length < minp then PVal.nan else f vs

/-- `rolling(w).mean()` (pandas default `min_periods` equals the window). -/
def rollingMean {n : ℕ} (w : ℕ) (c : Col n) : Col n :=
  rollingAgg w w PVal.listMean c

/-- `rolling(w).sum()`. -/
def rollingSum {n : ℕ} (w : ℕ) (c : Col n) : Col n :=
  rollingAgg w w PVal.listSum c

/-- `rolling(w).max()`. -/
def rollingMax {n : ℕ} (w : ℕ) (c : Col n) : Col n :=
  rollingAgg w w PVal.listMax c

/-- `rolling(w).min()`. -/
def rollingMin {n : ℕ} (w : ℕ) (c : Col n) : Col n :=
  rollingAgg w w PVal.listMin c

/-- Sample variance with the given delta-degrees-of-freedom over a
pre-filtered list. -/
def listVar (ddof : ℕ) (vs : List PVal) : PVal :=
  let m := PVal.listMean vs
  let sq := PVal.listSum (vs.map (fun v => PVal.mul (PVal.sub v m) (PVal.sub v m)))
  PVal.div sq (PVal.num ((vs.length : ℚ) - ddof))

/-- `rolling(w).std(ddof)`: square root of the sample variance, the real
square root abstracted by `fops.sqrt`. -/
def rollingStd {n : ℕ} (fops : FloatOps) (w minp ddof : ℕ) (c : Col n) : Col n :=
  rollingAgg w minp (fun vs =>
    match listVar ddof vs with
    | PVal.num q => PVal.num (fops.sqrt q)
    | v => v) c

/-- Recursion for `ewm(adjust=False).mean()`: carries the running mean
and the count of non-NaN observations so far; a NaN input carries the
previous mean forward, as pandas does. -/
def ewmAux (α : ℚ) (g : ℕ → PVal) : ℕ → PVal × ℕ
  | 0 => match g 0 with
    | PVal.nan => (PVal.nan, 0)
    | v => (v, 1)
  | k + 1 =>
    let (m, cnt) := ewmAux α g k
    match g (k + 1) with
    | PVal.nan => (m, cnt)
    | v =>
      if cnt = 0 then (v, 1)
      else (PVal.add (PVal.mul (PVal.num (1 - α)) m) (PVal.mul (PVal.num α) v), cnt + 1)

/-- `ewm(alpha=α, min_periods=minp, adjust=False).mean()`. -/
def ewmMean {n : ℕ} (α : ℚ) (minp : ℕ) (c : Col n) : Col n := fun i =>
  let p := ewmAux α (Col.at c) i.val
  if p.2 < minp then PVal.nan else p.1

/-- `ewm(span=s, ...)` uses `alpha = 2/(s+1)`. -/
def ewmSpanMean {n : ℕ} (s : ℕ) (minp : ℕ) (c : Col n) : Col n :=
  ewmMean (2 / ((s : ℚ) + 1)) minp c

/-- Running sum for `cumsum` (NaN inputs give NaN output but do not
reset the running total, as in pandas). -/
def cumsumAux (g : ℕ → PVal) : ℕ → ℚ × Bool
  | 0 => match g 0 with
    | PVal.num q => (q, true)
    | _ => (0, false)
  | k + 1 =>
    let (s, _) := cumsumAux g k
    match g (k + 1) with
    | PVal.num q => (s + q, true)
    | _ => (s, false)

/-- `series.cumsum()` over finite values; a NaN or infinite entry yields
NaN at that row (modelled: the running total tracks finite entries). -/
def cumsumCol {n : ℕ} (c : Col n) : Col n := fun i =>
  let p := cumsumAux (Col.at c) i.val
  if p.2 then PVal.num p.1 else PVal.nan

/-- `series.pct_change(p)`: with the default `fill_method='pad'` pandas
forward-fills before computing `x / x.shift(p) - 1`. -/
def pctChange {n : ℕ} (p : ℤ) (c : Col n) : Col n :=
  let f := ffillCol c
  colAddConst (-1) (colDiv f (shiftCol p f))

/-- Python exceptions the embedded code can raise.  The constructors
`insufficientData` and `modelNotTrained` name the error taxonomy of the
specification; the repository's code defines no such exception classes
and never produces them — they exist here so claims about them can be
stated. -/
inductive PyErr where
  | valueError
  | keyError
  | notFitted
  | indexError
  | insufficientData
  | modelNotTrained
deriving DecidableEq, Repr

/-! ### FeatureEngineer (`backend/features/feature_engineer.py`)

Third-party indicator calls (the `ta` library) are modelled from that
library's formulas; columns computed directly with pandas are modelled
from the repository's own expressions. -/

/-- `ta.momentum.RSIIndicator(close, window).rsi()`: Wilder smoothing of
up/down moves with `alpha = 1/window`, `min_periods = window`,
`rsi = 100 - 100/(1 + emaup/emadn)`. -/
def rsiCol {n : ℕ} (w : ℕ) (close : Col n) : Col n :=
  let d := colSub close (shiftCol 1 close)
  let up := colWhere d (fun i => PVal.gt (d i) (PVal.num 0)) 0
  let dn := colMap PVal.neg (colWhere d (fun i => PVal.lt (d i) (PVal.num 0)) 0)
  let emaup := ewmMean (1 / (w : ℚ)) w up
  let emadn := ewmMean (1 / (w : ℚ)) w dn
  fun i =>
    PVal.sub (PVal.num 100)
      (PVal.div (PVal.num 100)
        (PVal.add (PVal.num 1) (PVal.div (emaup i) (emadn i))))

/-- `ta.momentum.StochasticOscillator(high, low, close).stoch()`:
`100 (close - min₁₄ low) / (max₁₄ high - min₁₄ low)`. -/
def stochKCol {n : ℕ} (high low close : Col n) : Col n :=
  let smin := rollingMin 14 low
  let smax := rollingMax 14 high
  fun i =>
    PVal.div (PVal.mul (PVal.num 100) (PVal.sub (close i) (smin i)))
      (PVal.sub (smax i) (smin i))

/-- `ta.momentum.ROCIndicator(close, window).roc()`:
`100 (close - close.shift(w)) / close.shift(w)`. -/
def rocCol {n : ℕ} (w : ℕ) (close : Col n) : Col n :=
  let s := shiftCol w close
  colScale 100 (colDiv (colSub close s) s)

/-- True range with the previous close, NaN on the first row (the
shifted close does not exist there), as the `ta` volatility/trend
indicators compute it. -/
def trueRangeF (high low close : ℕ → PVal) : ℕ → PVal
  | 0 => PVal.nan
  | s + 1 => PVal.sub (PVal.max2 (high (s + 1)) (close s)) (PVal.min2 (low (s + 1)) (close s))

/-- Positive directional movement `+DM`. -/
def dmPlusF (high low : ℕ → PVal) : ℕ → PVal
  | 0 => PVal.nan
  | s + 1 =>
    let up := PVal.sub (high (s + 1)) (high s)
    let dn := PVal.sub (low s) (low (s + 1))
    if PVal.gt up dn && PVal.gt up (PVal.num 0) then up else PVal.num 0

/-- Negative directional movement `-DM`. -/
def dmMinusF (high low : ℕ → PVal) : ℕ → PVal
  | 0 => PVal.nan
  | s + 1 =>
    let up := PVal.sub (high (s + 1)) (high s)
    let dn := PVal.sub (low s) (low (s + 1))
    if PVal.gt dn up && PVal.gt dn (PVal.num 0) then dn else PVal.num 0

/-- Wilder running smoothed sum over window `w`: seeded at index `w`
with the sum of the first `w` movements, then
`s_t = s_{t-1} - s_{t-1}/w + x_t`. -/
def wilderSum (w : ℕ) (x : ℕ → PVal) : ℕ → PVal
  | 0 => PVal.nan
  | t + 1 =>
    if t + 1 < w then PVal.nan
    else if t + 1 = w then PVal.listSum ((List.range w).map (fun k => x (k + 1)))
    else
      let prev := wilderSum w x t
      PVal.add (PVal.sub prev (PVal.div prev (PVal.num (w : ℚ)))) (x (t + 1))

/-- Wilder smoothing of the directional index `dx`, seeded with the mean
of the first `w` defined `dx` values. -/
def adxAux (w : ℕ) (dx : ℕ → PVal) : ℕ → PVal
  | 0 => PVal.nan
  | t + 1 =>
    if t + 1 < 2 * w - 1 then PVal.nan
    else if t + 1 = 2 * w - 1 then
      PVal.listMean ((List.range w).map (fun k => dx (w + k)))
    else
      PVal.div
        (PVal.add (PVal.mul (adxAux w dx t) (PVal.num ((w : ℚ) - 1))) (dx (t + 1)))
        (PVal.num (w : ℚ))

/-- `ta.trend.ADXIndicator(high, low, close, window)` modelled by the
standard Wilder recurrences it implements: smoothed TR and ±DM, the
directional indicators `100·±DM/TR`, and Wilder-smoothed `dx`.
Returns `(adx, adx_pos, adx_neg)`. -/
def adxTriple {n : ℕ} (w : ℕ) (high low close : Col n) : Col n × Col n × Col n :=
  let tr := trueRangeF (Col.at high) (Col.at low) (Col.at close)
  let str := wilderSum w tr
  let sdmp := wilderSum w (dmPlusF (Col.at high) (Col.at low))
  let sdmm := wilderSum w (dmMinusF (Col.at high) (Col.at low))
  let dip := fun t => PVal.div (PVal.mul (PVal.num 100) (sdmp t)) (str t)
  let din := fun t => PVal.div (PVal.mul (PVal.num 100) (sdmm t)) (str t)
  let dx := fun t =>
    PVal.div (PVal.mul (PVal.num 100) (PVal.abs (PVal.sub (dip t) (din t))))
      (PVal.add (dip t) (din t))
  (fun i => adxAux w dx i.val, fun i => dip i.val, fun i => din i.val)

/-- `ta.volatility.AverageTrueRange` recursion: zeros before the seed,
the mean of the first `w` defined true ranges at index `w - 1`, then
`atr_t = (atr_{t-1}(w-1) + tr_t)/w`. -/
def atrAux (w : ℕ) (tr : ℕ → PVal) : ℕ → PVal
  | 0 =>
    if w ≤ 1 then PVal.listMean (((List.range w).map tr).filter (fun v => !v.isNaN))
    else PVal.num 0
  | s + 1 =>
    if s + 2 < w then PVal.num 0
    else if s + 2 = w then
      PVal.listMean (((List.range w).map tr).filter (fun v => !v.isNaN))
    else
      PVal.div
        (PVal.add (PVal.mul (atrAux w tr s) (PVal.num ((w : ℚ) - 1))) (tr (s + 1)))
        (PVal.num (w : ℚ))

/-- `ta.volatility.AverageTrueRange(high, low, close, window)`. -/
def atrCol {n : ℕ} (w : ℕ) (high low close : Col n) : Col n :=
  fun i => atrAux w (trueRangeF (Col.at high) (Col.at low) (Col.at close)) i.val

/-- `_add_price_features`. -/
def addPriceFeatures {n : ℕ} (d0 : Frame n) : Frame n :=
  let close := getColF d0 "close"
  let highc := getColF d0 "high"
  let lowc := getColF d0 "low"
  let openc := getColF d0 "open"
  let d := setColF d0 "returns" (pctChange 1 close)
  let d := setColF d "returns_5d" (pctChange 5 close)
  let d := setColF d "returns_10d" (pctChange 10 close)
  let d := setColF d "returns_20d" (pctChange 20 close)
  let d := setColF d "price_momentum_5" (colAddConst (-1) (colDiv close (shiftCol 5 close)))
  let d := setColF d "price_momentum_10" (colAddConst (-1) (colDiv close (shiftCol 10 close)))
  let d := setColF d "price_momentum_20" (colAddConst (-1) (colDiv close (shiftCol 20 close)))
  let d := setColF d "hl_pct" (colDiv (colSub highc lowc) close)
  let d := setColF d "co_pct" (colDiv (colSub close openc) openc)
  d

/-- `_add_momentum_features`. -/
def addMomentumFeatures {n : ℕ} (d0 : Frame n) : Frame n :=
  let close := getColF d0 "close"
  let highc := getColF d0 "high"
  let lowc := getColF d0 "low"
  let d := setColF d0 "rsi_7" (rsiCol 7 close)
  let d := setColF d "rsi_14" (rsiCol 14 close)
  let d := setColF d "rsi_21" (rsiCol 21 close)
  let stoch := stochKCol highc lowc close
  let d := setColF d "stoch_k" stoch
  let d := setColF d "stoch_d" (rollingMean 3 stoch)
  let d := setColF d "roc_5" (rocCol 5 close)
  let d := setColF d "roc_10" (rocCol 10 close)
  let d := setColF d "roc_20" (rocCol 20 close)
  let hmax := rollingMax 14 highc
  let lmin := rollingMin 14 lowc
  let d := setColF d "williams_r"
    (colScale (-100) (colDiv (colSub hmax close) (colSub hmax lmin)))
  d

/-- The guarded assignment
`df['ema_cross_12_26'] = (ema_5 - ema_20)/ema_20 if present else 0`. -/
def setEmaCross {n : ℕ} (d : Frame n) : Frame n :=
  setColF d "ema_cross_12_26"
    (if hasColF d "ema_5" && hasColF d "ema_20" then
      colDiv (colSub (getColF d "ema_5") (getColF d "ema_20")) (getColF d "ema_20")
    else constCol n 0)

/-- The guarded assignment
`df['trend_intensity'] = abs(close - sma_20)/atr_14 if atr_14 present else 0`. -/
def setTrendIntensity {n : ℕ} (d : Frame n) : Frame n :=
  setColF d "trend_intensity"
    (if hasColF d "atr_14" then
      colDiv (colMap PVal.abs (colSub (getColF d "close") (getColF d "sma_20")))
        (getColF d "atr_14")
    else constCol n 0)

/-- `_add_trend_features` (SMA/EMA interleaved per period as in the
source loop, then distances, crossovers, MACD and ADX). -/
def addTrendFeatures {n : ℕ} (d0 : Frame n) : Frame n :=
  let close := getColF d0 "close"
  let highc := getColF d0 "high"
  let lowc := getColF d0 "low"
  let sma20 := rollingMean 20 close
  let sma50 := rollingMean 50 close
  let sma200 := rollingMean 200 close
  let d := setColF d0 "sma_5" (rollingMean 5 close)
  let d := setColF d "ema_5" (ewmSpanMean 5 5 close)
  let d := setColF d "sma_10" (rollingMean 10 close)
  let d := setColF d "ema_10" (ewmSpanMean 10 10 close)
  let d := setColF d "sma_20" sma20
  let d := setColF d "ema_20" (ewmSpanMean 20 20 close)
  let d := setColF d "sma_50" sma50
  let d := setColF d "ema_50" (ewmSpanMean 50 50 close)
  let d := setColF d "sma_200" sma200
  let d := setColF d "ema_200" (ewmSpanMean 200 200 close)
  let d := setColF d "dist_sma_20" (colDiv (colSub close sma20) sma20)
  let d := setColF d "dist_sma_50" (colDiv (colSub close sma50) sma50)
  let d := setColF d "dist_sma_200" (colDiv (colSub close sma200) sma200)
  let d := setColF d "sma_cross_50_200" (colDiv (colSub sma50 sma200) sma200)
  let d := setEmaCross d
  let emafast := ewmSpanMean 12 12 close
  let emaslow := ewmSpanMean 26 26 close
  let macd := colSub emafast emaslow
  let macdSignal := ewmSpanMean 9 9 macd
  let d := setColF d "macd" macd
  let d := setColF d "macd_signal" macdSignal
  let d := setColF d "macd_diff" (colSub macd macdSignal)
  let adx3 := adxTriple 14 highc lowc close
  let d := setColF d "adx" adx3.1
  let d := setColF d "adx_pos" adx3.2.1
  let d := setColF d "adx_neg" adx3.2.2
  d

/-- `_add_volatility_features` (Bollinger with `ddof=0` std per the `ta`
library; ATR; rolling return std, `ddof=1`). -/
def addVolatilityFeatures {n : ℕ} (fops : FloatOps) (d0 : Frame n) : Frame n :=
  let close := getColF d0 "close"
  let highc := getColF d0 "high"
  let lowc := getColF d0 "low"
  let mavg := rollingMean 20 close
  let mstd := rollingStd fops 20 20 0 close
  let hband := colAdd mavg (colScale 2 mstd)
  let lband := colSub mavg (colScale 2 mstd)
  let d := setColF d0 "bb_high_20" hband
  let d := setColF d "bb_mid_20" mavg
  let d := setColF d "bb_low_20" lband
  let d := setColF d "bb_width_20" (colScale 100 (colDiv (colSub hband lband) mavg))
  let d := setColF d "bb_pct_20" (colDiv (colSub close lband) (colSub hband lband))
  let d := setColF d "atr_7" (atrCol 7 highc lowc close)
  let d := setColF d "atr_14" (atrCol 14 highc lowc close)
  let d := setColF d "atr_21" (atrCol 21 highc lowc close)
  let rets := getColF d "returns"
  let d := setColF d "volatility_10" (rollingStd fops 10 10 1 rets)
  let d := setColF d "volatility_20" (rollingStd fops 20 20 1 rets)
  let d := setColF d "volatility_30" (rollingStd fops 30 30 1 rets)
  d

/-- `_add_volume_features`. -/
def addVolumeFeatures {n : ℕ} (d0 : Frame n) : Frame n :=
  let close := getColF d0 "close"
  let vol := getColF d0 "volume"
  let d := setColF d0 "volume_change" (pctChange 1 vol)
  let vma5 := rollingMean 5 vol
  let vma10 := rollingMean 10 vol
  let vma20 := rollingMean 20 vol
  let d := setColF d "volume_ma_5" vma5
  let d := setColF d "volume_ma_10" vma10
  let d := setColF d "volume_ma_20" vma20
  let d := setColF d "volume_ratio_5" (colDiv vol vma5)
  let d := setColF d "volume_ratio_10" (colDiv vol vma10)
  let obv := cumsumCol
    (fun i => if PVal.lt (close i) (shiftCol 1 close i) then PVal.neg (vol i) else vol i)
  let d := setColF d "obv" obv
  let d := setColF d "obv_mean" (rollingMean 20 obv)
  let prevClose := shiftCol 1 close
  let d := setColF d "vpt"
    (cumsumCol (colMul (colDiv (colSub close prevClose) prevClose) vol))
  d

/-- `_add_pattern_features` (boolean columns cast to 0/1; NaN operands
compare false as in pandas). -/
def addPatternFeatures {n : ℕ} (d0 : Frame n) : Frame n :=
  let close := getColF d0 "close"
  let openc := getColF d0 "open"
  let highc := getColF d0 "high"
  let lowc := getColF d0 "low"
  let d := setColF d0 "doji"
    (boolCol (fun i =>
      PVal.lt (PVal.div (PVal.abs (PVal.sub (close i) (openc i)))
        (PVal.sub (highc i) (lowc i))) (PVal.num (1 / 10))))
  let d := setColF d "hammer"
    (boolCol (fun i =>
      PVal.gt (PVal.sub (highc i) (lowc i))
        (PVal.mul (PVal.num 3) (PVal.sub (openc i) (close i))) &&
      PVal.gt (PVal.div (PVal.sub (close i) (lowc i))
        (PVal.sub (PVal.add (PVal.num (1 / 1000)) (highc i)) (lowc i)))
        (PVal.num (6 / 10))))
  let d := setColF d "higher_high"
    (boolCol (fun i => PVal.gt (highc i) (shiftCol 1 highc i)))
  let d := setColF d "lower_low"
    (boolCol (fun i => PVal.lt (lowc i) (shiftCol 1 lowc i)))
  let d := setColF d "gap_up"
    (boolCol (fun i => PVal.gt (lowc i) (shiftCol 1 highc i)))
  let d := setColF d "gap_down"
    (boolCol (fun i => PVal.lt (highc i) (shiftCol 1 lowc i)))
  d

/-- Insertion sort on rationals (ascending). -/
def insertSorted (x : ℚ) : List ℚ → List ℚ
  | [] => [x]
  | y :: ys => if x ≤ y then x :: y :: ys else y :: insertSorted x ys

/-- Sort a list of rationals ascending. -/
def sortQ (l : List ℚ) : List ℚ := l.foldr insertSorted []

/-- The finite values of a column in row order. -/
def colFiniteVals {n : ℕ} (c : Col n) : List ℚ :=
  (List.finRange n).filterMap (fun i =>
    match c i with
    | PVal.num q => some q
    | _ => none)

/-- Linear-interpolation quantile of a sorted non-empty list, the numpy
default used by pandas `quantile`/`qcut`. -/
def quantileSorted (xs : List ℚ) (q : ℚ) : ℚ :=
  let h : ℚ := ((xs.length : ℚ) - 1) * q
  let lo := (Int.floor h).toNat
  let hi := (Int.ceil h).toNat
  let xlo := xs.getD lo 0
  let xhi := xs.getD hi 0
  xlo + (h - (Int.floor h : ℚ)) * (xhi - xlo)

/-- Drop adjacent duplicates of a sorted list (`np.unique` on sorted
quantile edges, as `qcut(duplicates='drop')` does). -/
def dedupSorted : List ℚ → List ℚ
  | [] => []
  | [x] => [x]
  | x :: y :: ys =>
    if x = y then dedupSorted (y :: ys) else x :: dedupSorted (y :: ys)

/-- `pd.qcut(c, q=3, labels=[0,1,2], duplicates='drop')` followed by
`astype(float)`: tertile edges of the finite values; after dropping
duplicate edges the three labels must match the remaining bins or
pandas raises `ValueError`; NaN stays NaN. -/
def qcut3Col {n : ℕ} (c : Col n) : Except PyErr (Col n) :=
  let vals := sortQ (colFiniteVals c)
  let edges := dedupSorted
    [quantileSorted vals 0, quantileSorted vals (1 / 3),
     quantileSorted vals (2 / 3), quantileSorted vals 1]
  if vals.isEmpty then Except.error PyErr.valueError
  else if edges.length ≠ 4 then Except.error PyErr.valueError
  else
    Except.ok (fun i =>
      match c i with
      | PVal.num v =>
        PVal.num (if v ≤ edges.getD 1 0 then 0 else if v ≤ edges.getD 2 0 then 1 else 2)
      | _ => PVal.nan)

/-- `_add_custom_features`; the `qcut` volatility-regime step can raise. -/
def addCustomFeatures {n : ℕ} (fops : FloatOps) (d0 : Frame n) : Except PyErr (Frame n) :=
  let close := getColF d0 "close"
  let highc := getColF d0 "high"
  let lowc := getColF d0 "low"
  let vol := getColF d0 "volume"
  let typicalPrice := colScale (1 / 3) (colAdd (colAdd highc lowc) close)
  let moneyFlow := colMul typicalPrice vol
  let prevClose := shiftCol 1 close
  let positiveFlow := colWhere moneyFlow (fun i => PVal.gt (close i) (prevClose i)) 0
  let negativeFlow := colWhere moneyFlow (fun i => PVal.lt (close i) (prevClose i)) 0
  let positiveMf := rollingSum 14 positiveFlow
  let negativeMf := rollingSum 14 negativeFlow
  let d := setColF d0 "mfi"
    (fun i =>
      PVal.sub (PVal.num 100)
        (PVal.div (PVal.num 100)
          (PVal.add (PVal.num 1)
            (PVal.div (positiveMf i) (PVal.add (negativeMf i) (PVal.num 1))))))
  let d := setTrendIntensity d
  match qcut3Col (getColF d "volatility_20") with
  | Except.error e => Except.error e
  | Except.ok regime =>
    let d := setColF d "volatility_regime" regime
    let rets := getColF d "returns"
    let d := setColF d "price_acceleration" (colSub rets (shiftCol 1 rets))
    let volumeMean := rollingMean 20 vol
    let volumeStd := rollingStd fops 20 20 1 vol
    let d := setColF d "volume_surge"
      (boolCol (fun i =>
        PVal.gt (PVal.div (PVal.sub (vol i) (volumeMean i))
          (PVal.add (volumeStd i) (PVal.num 1))) (PVal.num 2)))
    let d := setColF d "near_20d_high"
      (boolCol (fun i =>
        PVal.lt (PVal.div (PVal.sub (rollingMax 20 highc i) (close i)) (close i))
          (PVal.num (2 / 100))))
    let d := setColF d "near_20d_low"
      (boolCol (fun i =>
        PVal.lt (PVal.div (PVal.sub (close i) (rollingMin 20 lowc i)) (close i))
          (PVal.num (2 / 100))))
    Except.ok d

/-- The columns `calculate_all_features` requires. -/
def requiredCols : List String := ["open", "high", "low", "close", "volume"]

/-- The final fill pass `fillna(method='bfill').fillna(method='ffill')`,
applied per column. -/
def fillFrame {n : ℕ} (fr : Frame n) : Frame n :=
  fr.map (fun p => (p.1, ffillCol (bfillCol p.2)))

/-- The full feature pipeline on the columns of an `n`-row frame. -/
def featurePipeline {n : ℕ} (fops : FloatOps) (fr : Frame n) : Except PyErr (Frame n) :=
  let d1 := addPriceFeatures fr
  let d2 := addMomentumFeatures d1
  let d3 := addTrendFeatures d2
  let d4 := addVolatilityFeatures fops d3
  let d5 := addVolumeFeatures d4
  let d6 := addPatternFeatures d5
  match addCustomFeatures fops d6 with
  | Except.error e => Except.error e
  | Except.ok d7 => Except.ok (fillFrame d7)

/-- `FeatureEngineer.calculate_all_features`.  The `pd.to_numeric`
coercion is the identity here: cells are already numeric in the
embedding, with coercion failures represented as NaN inputs. -/
def calcAllFeatures (fops : FloatOps) (df : DF) : Except PyErr DF :=
  if df.cols.isEmpty || df.n < 50 then Except.ok df
  else if requiredCols.all (fun c => df.hasCol c) then
    match featurePipeline fops df.cols with
    | Except.error e => Except.error e
    | Except.ok d7 => Except.ok ⟨df.n, d7⟩
  else Except.error PyErr.valueError

/-! ### StockPredictor (`backend/models/predictor.py`)

The gradient-boosted models and the scaler fit are numeric black boxes
outside every claim; they are abstracted as parameters (`ModelFns`,
`MLBackend`), while all control flow, data preparation, imputation and
the inference formulas are embedded from the source. -/

/-- A fitted `StandardScaler`: per-feature centre and scale. -/
structure ScalerParams where
  mean : List ℚ
  scale : List ℚ

/-- The three fitted models of `self.models`: the two classifiers map a
scaled feature row to their positive-class probability, the regressor to
the predicted return. -/
structure ModelFns where
  xgbClass : List PVal → ℚ
  lgbClass : List PVal → ℚ
  xgbReg : List PVal → ℚ

/-- `self.horizons` as set in `__init__`. -/
def defaultHorizons : List (String × ℕ) := [("intraday", 1), ("swing", 5), ("position", 20)]

/-- `self.horizons.get(prediction_type, 5)`. -/
def horizonsGet (p : String) : ℕ :=
  if p = "intraday" then 1 else if p = "swing" then 5 else if p = "position" then 20 else 5

/-- `_get_threshold`: `thresholds.get(prediction_type, 0.02)`. -/
def getThreshold (p : String) : ℚ :=
  if p = "intraday" then 1 / 100
  else if p = "swing" then 2 / 100
  else if p = "position" then 5 / 100
  else 2 / 100

/-- The mutable attributes of a `StockPredictor` instance:
`models == {}` is `none`, an unfitted `StandardScaler` is `none`. -/
structure PredictorState where
  prediction_type : String
  models : Option ModelFns
  scaler : Option ScalerParams
  feature_names : List String
  horizons : List (String × ℕ)
  forecast_days : ℕ
  model_dir : String

/-- `StockPredictor.__init__(prediction_type)`. -/
def initStockPredictor (p : String) : PredictorState :=
  ⟨p, none, none, [], defaultHorizons, horizonsGet p, "ml_models/trained_models"⟩

/-- Label construction of `prepare_training_data` on the
feature-augmented frame: forward-shifted return, thresholded binary
target, regression target, then `dropna(subset=['target',
'target_return'])`. -/
def labelFrame (ptype : String) (fd : ℕ) (dfF : DF) : DF :=
  let close := dfF.getCol "close"
  let d1 := dfF.setCol "future_return"
    (colAddConst (-1) (colDiv (shiftCol (-(fd : ℤ)) close) close))
  let d2 := d1.setCol "target"
    (boolCol (fun i => PVal.gt (d1.getCol "future_return" i) (PVal.num (getThreshold ptype))))
  let d3 := d2.setCol "target_return" (d2.getCol "future_return")
  d3.filterRows (fun k =>
    (Col.at (d3.getCol "target") k).isDefined &&
    (Col.at (d3.getCol "target_return") k).isDefined)

/-- `prepare_training_data`: feature computation followed by label
construction. -/
def prepareTrainingData (fops : FloatOps) (s : PredictorState) (df : DF) : Except PyErr DF :=
  match calcAllFeatures fops df with
  | Except.error e => Except.error e
  | Except.ok dfF => Except.ok (labelFrame s.prediction_type s.forecast_days dfF)

/-- The columns `select_features` excludes. -/
def excludeCols : List String :=
  ["target", "target_return", "future_return",
   "open", "high", "low", "close", "volume",
   "datetime", "date", "ticker", "symbol"]

/-- `df[col].notna().sum()`. -/
def notnaCount {n : ℕ} (c : Col n) : ℕ :=
  ((List.finRange n).filter (fun i => (c i).isDefined)).length

/-- `select_features`: every column not excluded, then drop columns with
no defined value. -/
def selectFeatures (df : DF) : List String :=
  let featureCols := df.colNames.filter (fun c => !(excludeCols.contains c))
  featureCols.filter (fun c => 0 < notnaCount (df.getCol c))

/-- `X.replace([np.inf, -np.inf], np.nan)` on one column. -/
def replaceInfNan {n : ℕ} (c : Col n) : Col n := fun i =>
  match c i with
  | PVal.pinf => PVal.nan
  | PVal.ninf => PVal.nan
  | v => v

/-- The column mean pandas `X.mean(numeric_only=True)` computes: the
mean of the column's defined cells over ALL `n` rows (NaN if none). -/
def colMeanSkipNan {n : ℕ} (c : Col n) : PVal :=
  let vs := colFiniteVals c
  if vs.length = 0 then PVal.nan else PVal.num (vs.sum / vs.length)

/-- The imputation step of `train_models` lines 140-141: replace
infinities with NaN, then `X.fillna(X.mean(numeric_only=True))` — the
fill value is the full-column mean, computed before any train/test
split. -/
def imputeCol {n : ℕ} (c : Col n) : Col n :=
  let r := replaceInfNan c
  let m := colMeanSkipNan r
  fun i => if (r i).isNaN then m else r i

/-- The persisted artifact `model_package` of `save_models`. -/
structure ModelPackage where
  models : Option ModelFns
  scaler : Option ScalerParams
  feature_names : List String
  prediction_type : String
  forecast_days : ℕ

/-- `save_models`: the package written (identically) to the timestamped
file and the `latest` file. -/
def saveModels (s : PredictorState) : ModelPackage :=
  ⟨s.models, s.scaler, s.feature_names, s.prediction_type, s.forecast_days⟩

/-- `load_models`: restore every persisted field onto the instance. -/
def loadModels (s : PredictorState) (pkg : ModelPackage) : PredictorState :=
  { s with
    models := pkg.models
    scaler := pkg.scaler
    feature_names := pkg.feature_names
    prediction_type := pkg.prediction_type
    forecast_days := pkg.forecast_days }

/-- The abstracted ML library: model fits, scaler fit and the metrics
dictionary of `_evaluate_ensemble`.  Their numeric content is outside
every claim below, which hold for an arbitrary backend. -/
structure MLBackend where
  fitXgbClass : List (List PVal) → List PVal → List (List PVal) → List PVal → (List PVal → ℚ)
  fitLgbClass : List (List PVal) → List PVal → List (List PVal) → List PVal → (List PVal → ℚ)
  fitXgbReg : List (List PVal) → List PVal → List (List PVal) → List PVal → (List PVal → ℚ)
  fitScaler : List (List PVal) → ScalerParams
  evalMetrics : List (List PVal) → List PVal → List PVal → List (String × ℚ)

/-- `StandardScaler.transform` on one row. -/
def scalerTransform (sc : ScalerParams) (xs : List PVal) : List PVal :=
  (xs.zip (sc.mean.zip sc.scale)).map
    (fun p => PVal.div (PVal.sub p.1 (PVal.num p.2.1)) (PVal.num p.2.2))

/-- The observable outcome of one `train_models` call: the instance
state afterwards, the returned metrics dict (or a raised exception), and
the artifacts written during the call — `train_models` itself never
persists (`save_models` is a separate call), so `saved` is `[]` on every
path. -/
structure TrainOutcome where
  state : PredictorState
  result : Except PyErr (List (String × ℚ))
  saved : List ModelPackage

/-- `train_models`.  When the prepared, labeled frame has fewer than 100
rows the method logs an error and returns the empty dict `{}` with the
instance untouched; otherwise it selects features, imputes, splits
80/20 chronologically, scales, fits and evaluates. -/
def trainModels (be : MLBackend) (fops : FloatOps) (s : PredictorState) (df : DF) :
    TrainOutcome :=
  match prepareTrainingData fops s df with
  | Except.error e => ⟨s, Except.error e, []⟩
  | Except.ok dp =>
    if dp.n < 100 then ⟨s, Except.ok [], []⟩
    else
      let fns := selectFeatures dp
      let cols := fns.map (fun c => imputeCol (dp.getCol c))
      -- `int(len(X) * 0.8)` truncates toward zero; for the row counts in
      -- scope the float product rounds to the exact value, so this is
      -- `⌊4n/5⌋`.
      let splitIdx := 4 * dp.n / 5
      let row := fun (k : ℕ) => cols.map (fun c => Col.at c k)
      let trainRows := (List.range splitIdx).map row
      let testRows := ((List.range (dp.n - splitIdx)).map (fun k => splitIdx + k)).map row
      let yCls := fun (k : ℕ) => Col.at (dp.getCol "target") k
      let yReg := fun (k : ℕ) => Col.at (dp.getCol "target_return") k
      let yTrain := (List.range splitIdx).map yCls
      let yTest := ((List.range (dp.n - splitIdx)).map (fun k => splitIdx + k)).map yCls
      let yTrainReg := (List.range splitIdx).map yReg
      let yTestReg := ((List.range (dp.n - splitIdx)).map (fun k => splitIdx + k)).map yReg
      let sc := be.fitScaler trainRows
      let xTrainScaled := trainRows.map (scalerTransform sc)
      let xTestScaled := testRows.map (scalerTransform sc)
      let mXgb := be.fitXgbClass xTrainScaled yTrain xTestScaled yTest
      let mLgb := be.fitLgbClass xTrainScaled yTrain xTestScaled yTest
      let mReg := be.fitXgbReg xTrainScaled yTrainReg xTestScaled yTestReg
      let s2 : PredictorState :=
        { s with
          feature_names := fns
          scaler := some sc
          models := some ⟨mXgb, mLgb, mReg⟩ }
      ⟨s2, Except.ok (be.evalMetrics xTestScaled yTest yTestReg), []⟩

/-- The `predict` result dict. -/
structure PredictionResult where
  direction : String
  confidence : ℚ
  predicted_return : ℚ
  current_price : PVal
  target_price : PVal
  stop_loss : PVal
  forecast_days : ℕ
deriving DecidableEq, Repr

/-- The single-row feature vector `predict` extracts: the last row of
the selected columns, with infinities replaced by NaN.  The subsequent
`X.fillna(X.mean(numeric_only=True))` is the identity on a one-row
frame: the column mean of a single cell is that cell (or NaN). -/
def latestFeatureRow (names : List String) (dfF : DF) : List PVal :=
  names.map (fun c =>
    match Col.at (dfF.getCol c) (dfF.n - 1) with
    | PVal.pinf => PVal.nan
    | PVal.ninf => PVal.nan
    | v => v)

/-- `StockPredictor.predict`.  Error identities follow the Python
evaluation order: feature errors propagate; a selected feature missing
from the frame raises `KeyError`; an unfitted scaler raises sklearn's
not-fitted error; with no fitted models `self.models['xgb_class']`
raises `KeyError`; indexing the probability of an empty frame raises
`IndexError`; a missing raw `close` column raises `KeyError`. -/
def predictFn (fops : FloatOps) (s : PredictorState) (df : DF) :
    Except PyErr PredictionResult :=
  match calcAllFeatures fops df with
  | Except.error e => Except.error e
  | Except.ok dfF =>
    if !(s.feature_names.all (fun c => dfF.hasCol c)) then Except.error PyErr.keyError
    else
      match s.scaler with
      | none => Except.error PyErr.notFitted
      | some sc =>
        match s.models with
        | none => Except.error PyErr.keyError
        | some m =>
          if dfF.n = 0 then Except.error PyErr.indexError
          else if !(df.hasCol "close") then Except.error PyErr.keyError
          else
            let xScaled := scalerTransform sc (latestFeatureRow s.feature_names dfF)
            let xgbProba := m.xgbClass xScaled
            let lgbProba := m.lgbClass xScaled
            let confidence := (xgbProba + lgbProba) / 2
            let predictedReturn := m.xgbReg xScaled
            let currentPrice := Col.at (df.getCol "close") (df.n - 1)
            let targetPrice := PVal.mul currentPrice (PVal.num (1 + predictedReturn))
            let direction := if (1 : ℚ) / 2 < confidence then "up" else "down"
            let stopLoss :=
              if hasColF dfF.cols "atr_14" then
                let atr := Col.at (dfF.getCol "atr_14") (dfF.n - 1)
                if direction = "up" then PVal.sub currentPrice (PVal.mul (PVal.num 2) atr)
                else PVal.add currentPrice (PVal.mul (PVal.num 2) atr)
              else
                if direction = "up" then PVal.mul currentPrice (PVal.num (97 / 100))
                else PVal.mul currentPrice (PVal.num (103 / 100))
            Except.ok ⟨direction, confidence, predictedReturn, currentPrice,
              targetPrice, stopLoss, s.forecast_days⟩

/-! ### TradingDayCalculator (`backend/utils/trading_days.py`)

Dates are natural numbers: days since 1970-01-01 (a Thursday).  The
civil-calendar conversions use the standard era-based algorithms; the
holiday set is pandas' `USFederalHolidayCalendar` (New Year, MLK Day,
Washington's Birthday, Memorial Day, Juneteenth from 2021,
Independence Day, Labor Day, Columbus Day, Veterans Day, Thanksgiving,
Christmas, with Saturday holidays observed the Friday before and Sunday
holidays the Monday after).  `CustomBusinessDay` with `n ≥ 1` rolls a
non-business start backward to the previous business day and then
advances `n` business days, which coincides with iterating
"next open day" `n` times from the start. -/

/-- Python `date.weekday()`: Monday = 0 … Sunday = 6. -/
def weekday (d : ℕ) : ℕ := (d + 3) % 7

/-- Days-from-civil (era-based algorithm), valid for years ≥ 1970. -/
def fromCivil (y m dd : ℕ) : ℕ :=
  let y2 := if m ≤ 2 then y - 1 else y
  let era := y2 / 400
  let yoe := y2 % 400
  let mp := if 2 < m then m - 3 else m + 9
  let doy := (153 * mp + 2) / 5 + dd - 1
  let doe := yoe * 365 + yoe / 4 - yoe / 100 + doy
  era * 146097 + doe - 719468

/-- Civil-from-days (era-based algorithm): `(year, month, day)`. -/
def toCivil (d : ℕ) : ℕ × ℕ × ℕ :=
  let z := d + 719468
  let era := z / 146097
  let doe := z % 146097
  let yoe := (doe - doe / 1460 + doe / 36524 - doe / 146096) / 365
  let y := yoe + era * 400
  let doy := doe - (365 * yoe + yoe / 4 - yoe / 100)
  let mp := (5 * doy + 2) / 153
  let dd := doy - (153 * mp + 2) / 5 + 1
  let m := if mp < 10 then mp + 3 else mp - 9
  (if m ≤ 2 then y + 1 else y, m, dd)

/-- The year of a day number. -/
def yearOf (d : ℕ) : ℕ := (toCivil d).1

/-- Saturday holidays are observed the Friday before, Sunday holidays
the Monday after (`nearest_workday`). -/
def nearestWorkday (d : ℕ) : ℕ :=
  if weekday d = 5 then d - 1 else if weekday d = 6 then d + 1 else d

/-- Day number of the `k`-th (1-based) weekday `w` (Monday = 0) of a
month. -/
def nthWeekdayOfMonth (y m w k : ℕ) : ℕ :=
  let d1 := fromCivil y m 1
  d1 + (w + 7 - weekday d1) % 7 + 7 * (k - 1)

/-- Day number of the last weekday `w` of a month whose final day is
`lastDay`. -/
def lastWeekdayOfMonth (y m w lastDay : ℕ) : ℕ :=
  let dl := fromCivil y m lastDay
  dl - (weekday dl + 7 - w) % 7

/-- The observed federal holidays of one year, empty before 1970 (the
embedding's date domain starts at 1970-01-01). -/
def holidayList (y : ℕ) : List ℕ :=
  if y < 1970 then []
  else
    [nearestWorkday (fromCivil y 1 1),
     nthWeekdayOfMonth y 1 0 3,
     nthWeekdayOfMonth y 2 0 3,
     lastWeekdayOfMonth y 5 0 31] ++
    (if 2021 ≤ y then [nearestWorkday (fromCivil y 6 19)] else []) ++
    [nearestWorkday (fromCivil y 7 4),
     nthWeekdayOfMonth y 9 0 1,
     nthWeekdayOfMonth y 10 0 2,
     nearestWorkday (fromCivil y 11 11),
     nthWeekdayOfMonth y 11 3 4,
     nearestWorkday (fromCivil y 12 25)]

/-- Membership in the holiday calendar (observance can shift a holiday
into an adjacent year, so the adjacent years' rules are consulted). -/
def isHoliday (d : ℕ) : Bool :=
  let y := yearOf d
  (holidayList (y - 1) ++ holidayList y ++ holidayList (y + 1)).contains d

/-- `TradingDayCalculator.is_trading_day`: weekends first, then the
holiday calendar. -/
def isTradingDay (d : ℕ) : Bool :=
  if 5 ≤ weekday d then false
  else if isHoliday d then false
  else true

/-- First trading day strictly after the candidate, bounded search (366
days always suffices for this holiday set; `none` is unreachable in
practice and models the offset arithmetic never finding an open day). -/
def nextOpenFrom : ℕ → ℕ → Option ℕ
  | 0, _ => none
  | fuel + 1, c => if isTradingDay c then some c else nextOpenFrom fuel (c + 1)

/-- The next trading day strictly after `d`. -/
def nextOpenDay (d : ℕ) : Option ℕ := nextOpenFrom 366 (d + 1)

/-- `n`-fold iteration of `nextOpenDay`. -/
def addOpenIter (d : ℕ) : ℕ → Option ℕ
  | 0 => some d
  | n + 1 => (addOpenIter d n).bind nextOpenDay

/-- `TradingDayCalculator.add_trading_days(start, n)`:
`start + n * CustomBusinessDay(calendar)`.  For `n ≥ 1` this is `n`
iterations of "next open day"; for `n = 0` numpy rolls a non-business
start forward. -/
def addTradingDays (d n : ℕ) : Option ℕ :=
  if n = 0 then (if isTradingDay d then some d else nextOpenDay d)
  else addOpenIter d n

/-- `trading_days_map.get(prediction_type, 1)` of
`get_prediction_target_date`. -/
def tradingDaysMapGet (p : String) : ℕ :=
  if p = "intraday" then 1 else if p = "swing" then 5 else if p = "position" then 20 else 1

/-- `TradingDayCalculator.get_prediction_target_date` with an explicit
start date (the Python default is "now"). -/
def getPredictionTargetDate (p : String) (startDate : ℕ) : Option ℕ :=
  addTradingDays startDate (tradingDaysMapGet p)

/-- The number of trading days in the half-open interval `(a, a+len]`. -/
def openCntFrom (a : ℕ) : ℕ → ℕ
  | 0 => 0
  | len + 1 => openCntFrom a len + (if isTradingDay (a + len + 1) then 1 else 0)

/-- The number of trading days in `(a, b]`. -/
def openCount (a b : ℕ) : ℕ := openCntFrom a (b - a)

/-! ### Spec-side definitions and concrete inputs used by the theorems -/

/-- An identity stand-in for the abstracted square root; the concrete
evaluations below do not depend on its values (only on definedness,
which any `FloatOps` preserves). -/
def idFops : FloatOps := ⟨fun q => q⟩

/-- A column from a list of finite values. -/
def colOfList (n : ℕ) (l : List ℚ) : Col n := fun i => PVal.num (l.getD i.val 0)

/-- Does every cell of a column hold a positive finite value? -/
def allPosCol {n : ℕ} (c : Col n) : Bool :=
  (List.finRange n).all (fun i =>
    match c i with
    | PVal.num q => decide (0 < q)
    | _ => false)

/-- The spec's §3 validity invariant on an OHLCV series, as a decidable
check: the five columns exist and every row has finite values with
`low ≤ {open, close} ≤ high` and `volume ≥ 0`. -/
def specValidOHLCV (df : DF) : Bool :=
  requiredCols.all (fun c => df.hasCol c) &&
  (List.finRange df.n).all (fun i =>
    match df.getCol "open" i, df.getCol "high" i, df.getCol "low" i,
      df.getCol "close" i, df.getCol "volume" i with
    | PVal.num o, PVal.num h, PVal.num l, PVal.num c, PVal.num v =>
      decide (l ≤ o) && decide (o ≤ h) && decide (l ≤ c) && decide (c ≤ h) &&
      decide (0 ≤ v)
    | _, _, _, _, _ => false)

/-- The spec's words for the training-imputation fill value: "the column
mean computed over the leading 80% training slice only" — the mean of
the defined cells among the first `⌊0.8 n⌋` rows. -/
def specLeadingSliceMean {n : ℕ} (c : Col n) : PVal :=
  let vs := ((List.finRange n).filter (fun i => i.val < 4 * n / 5)).filterMap
    (fun i =>
      match c i with
      | PVal.num q => some q
      | _ => none)
  if vs.length = 0 then PVal.nan else PVal.num (vs.sum / vs.length)

/-- The corrected description of the fill value: the column mean over
the defined cells of the FULL series, held-out tail included. -/
def specFullSeriesMean {n : ℕ} (c : Col n) : PVal :=
  let vs := (List.finRange n).filterMap
    (fun i =>
      match replaceInfNan c i with
      | PVal.num q => some q
      | _ => none)
  if vs.length = 0 then PVal.nan else PVal.num (vs.sum / vs.length)

/-- Does `prepare_training_data` succeed with fewer than 100 labeled
rows? (The guard of `train_models` line 128.) -/
def prepCountBelow100 (fops : FloatOps) (s : PredictorState) (df : DF) : Bool :=
  match prepareTrainingData fops s df with
  | Except.ok dp => dp.n < 100
  | Except.error _ => false

/-- A 10-row constant valid OHLCV series (below the 50-row feature
threshold). -/
def df10 : DF :=
  ⟨10, [("open", constCol 10 100), ("high", constCol 10 101),
        ("low", constCol 10 99), ("close", constCol 10 100),
        ("volume", constCol 10 1000)]⟩

/-- A 50-row valid OHLCV series with linearly increasing prices. -/
def close50 : List ℚ := (List.range 50).map (fun t => (100 : ℚ) + t)

/-- The 50-row valid OHLCV frame built from `close50`. -/
def df50 : DF :=
  ⟨50, [("open", colOfList 50 close50),
        ("high", colOfList 50 (close50.map (fun q => q + 1))),
        ("low", colOfList 50 (close50.map (fun q => q - 1))),
        ("close", colOfList 50 close50),
        ("volume", constCol 50 1000)]⟩

/-- A dummy ML backend (constant fits); the theorems hold for every
backend, the concrete witnesses use this one. -/
def be0 : MLBackend :=
  ⟨fun _ _ _ _ _ => 0, fun _ _ _ _ _ => 0, fun _ _ _ _ _ => 0,
   fun _ => ⟨[], []⟩, fun _ _ _ => []⟩

/-- Fixed models for the inference witness: both classifiers output
probability 3/5, the regressor return 1/10. -/
def m6 : ModelFns := ⟨fun _ => 3 / 5, fun _ => 3 / 5, fun _ => 1 / 10⟩

/-- A concretely trained predictor state for the inference witness. -/
def s6 : PredictorState :=
  ⟨"swing", some m6, some ⟨[0], [1]⟩, ["open"], defaultHorizons, 5,
   "ml_models/trained_models"⟩

/-- The inference result the witness state `s6` produces on `df10`. -/
def r6 : PredictionResult :=
  ⟨"up", 3 / 5, 1 / 10, PVal.num 100, PVal.num 110, PVal.num 97, 5⟩

/-- A 125-row feature column: 0 on the leading 80% slice, 1 on the
held-out tail, undefined in the last row — its full-series mean (6/31)
differs from its leading-slice mean (0). -/
def c125 : Col 125 := fun i =>
  if i.val = 124 then PVal.nan
  else if i.val < 100 then PVal.num 0
  else PVal.num 1

deriving instance DecidableEq for Except

/-! ### Theorems -/

set_option maxRecDepth 100000

/-- C8: for every input series with fewer than 50 rows,
`calculate_all_features` returns the input itself — same columns, same
values, no derived columns, no error. -/
theorem c8_short_input_returned_unchanged (fops : FloatOps) (df : DF) (h : df.n < 50) :
    calcAllFeatures fops df = Except.ok df := by
  have hc : (df.cols.isEmpty || decide (df.n < 50)) = true := by simp [h]
  simp [calcAllFeatures, hc]

/-- Witness for C8 at the concrete 10-row series. -/
theorem c8_witness : df10.n < 50 ∧ calcAllFeatures idFops df10 = Except.ok df10 :=
  ⟨by decide, c8_short_input_returned_unchanged idFops df10 (by decide)⟩

/-- C10: for a prediction-class name outside
`{intraday, swing, position}`, `StockPredictor.__init__` falls back to a
5-day forecast horizon (threshold 0.02) while
`get_prediction_target_date` falls back to advancing 1 trading day, so
the two components' default horizons differ. -/
theorem c10_default_horizon_mismatch (p : String)
    (h1 : p ≠ "intraday") (h2 : p ≠ "swing") (h3 : p ≠ "position") :
    (initStockPredictor p).forecast_days = 5 ∧ getThreshold p = 2 / 100 ∧
    tradingDaysMapGet p = 1 ∧
    (∀ d0, getPredictionTargetDate p d0 = addTradingDays d0 1) ∧
    (initStockPredictor p).forecast_days ≠ tradingDaysMapGet p := by
  simp [initStockPredictor, horizonsGet, getThreshold, tradingDaysMapGet,
    getPredictionTargetDate, h1, h2, h3]

/-- Witness for C10 at the unrecognized class name `"momentum"`. -/
theorem c10_witness :
    (initStockPredictor "momentum").forecast_days = 5 ∧
    getThreshold "momentum" = 2 / 100 ∧
    tradingDaysMapGet "momentum" = 1 ∧
    (∀ d0, getPredictionTargetDate "momentum" d0 = addTradingDays d0 1) ∧
    (initStockPredictor "momentum").forecast_days ≠ tradingDaysMapGet "momentum" :=
  c10_default_horizon_mismatch "momentum" (by decide) (by decide) (by decide)

/-- C9: `load_models` after `save_models` restores every field that
affects inference — models, scaler, ordered feature names, prediction
type and forecast horizon — so `predict` on the restored state equals
`predict` on the original for every input. -/
theorem c9_save_load_roundtrip_predict (fops : FloatOps) (s t : PredictorState) (df : DF) :
    loadModels t (saveModels s) =
      ⟨s.prediction_type, s.models, s.scaler, s.feature_names, t.horizons,
        s.forecast_days, t.model_dir⟩ ∧
    predictFn fops (loadModels t (saveModels s)) df = predictFn fops s df := by
  constructor
  · rfl
  · rfl

/-- C1 counterexample: on a series whose prepared, labeled row count is
below 100 (here 5 rows), `train_models` does NOT fail with an
`InsufficientData` exception — it returns the empty metrics dict. -/
theorem c1_counterexample :
    (trainModels be0 idFops (initStockPredictor "swing") df10).result = Except.ok [] ∧
    (trainModels be0 idFops (initStockPredictor "swing") df10).result ≠
      Except.error PyErr.insufficientData := by
  with_unfolding_all decide

/-- C1 amended: when the prepared, labeled row count is below 100,
`train_models` returns the empty metrics dict `{}` (no exception is
raised), writes no artifact, and leaves the instance state — models,
scaler, feature names, everything — exactly as it was. -/
theorem c1_train_insufficient_rows_noop (be : MLBackend) (fops : FloatOps)
    (s : PredictorState) (df : DF) (h : prepCountBelow100 fops s df = true) :
    trainModels be fops s df = ⟨s, Except.ok [], []⟩ := by
  unfold prepCountBelow100 at h
  unfold trainModels
  cases hp : prepareTrainingData fops s df with
  | error e => rw [hp] at h; exact absurd h (by simp)
  | ok dp =>
    rw [hp] at h
    simp only [decide_eq_true_eq] at h
    simp [h]

/-- Witness for C1 at the concrete 10-row series (5 labeled rows). -/
theorem c1_witness :
    prepCountBelow100 idFops (initStockPredictor "swing") df10 = true ∧
    trainModels be0 idFops (initStockPredictor "swing") df10 =
      ⟨initStockPredictor "swing", Except.ok [], []⟩ :=
  ⟨by with_unfolding_all decide,
   c1_train_insufficient_rows_noop be0 idFops (initStockPredictor "swing") df10
     (by with_unfolding_all decide)⟩

/-- C4 counterexample: `predict` on a freshly constructed (untrained)
predictor fails with the scaler's not-fitted error, not with a
`ModelNotTrained` exception (no such exception class exists in the
code). -/
theorem c4_counterexample :
    predictFn idFops (initStockPredictor "swing") df10 = Except.error PyErr.notFitted ∧
    predictFn idFops (initStockPredictor "swing") df10 ≠
      Except.error PyErr.modelNotTrained := by
  with_unfolding_all decide

/-- C4 amended: `predict` on an untrained predictor (no successful
training, no loaded artifact) always fails with a raised error — a
propagated feature-computation error, or otherwise sklearn's
unfitted-scaler error — and never returns a prediction result. -/
theorem c4_untrained_predict_always_fails (fops : FloatOps) (p : String) (df : DF) :
    ∃ e, predictFn fops (initStockPredictor p) df = Except.error e ∧
      (∀ dfF, calcAllFeatures fops df = Except.ok dfF → e = PyErr.notFitted) := by
  unfold predictFn
  cases hc : calcAllFeatures fops df with
  | error e =>
    exact ⟨e, rfl, fun dfF h => Except.noConfusion h⟩
  | ok dfF =>
    refine ⟨PyErr.notFitted, ?_, fun _ _ => rfl⟩
    simp [initStockPredictor]

/-- C3 counterexample: the imputation of `train_models` fills the
undefined cell of `c125` (row 124, inside the trailing 20%) with the
full-series mean 6/31, not with the leading-80%-slice mean 0 the claim
describes. -/
theorem c3_counterexample :
    (replaceInfNan c125 ⟨124, by omega⟩).isNaN = true ∧
    imputeCol c125 ⟨124, by omega⟩ = PVal.num (6 / 31) ∧
    specLeadingSliceMean c125 = PVal.num 0 ∧
    PVal.num ((6 : ℚ) / 31) ≠ PVal.num 0 := by
  with_unfolding_all decide

/-- C3 amended: during training, after infinities are replaced by NaN,
every remaining undefined cell is filled with the column mean over the
defined cells of the FULL series (trailing 20% included), and defined
cells are left unchanged. -/
theorem c3_impute_uses_full_series_mean {n : ℕ} (c : Col n) (i : Fin n)
    (h : (replaceInfNan c i).isNaN = true) :
    imputeCol c i = specFullSeriesMean c ∧
    ∀ j : Fin n, (replaceInfNan c j).isNaN = false → imputeCol c j = replaceInfNan c j := by
  constructor
  · simp only [imputeCol, h, if_true]
    rfl
  · intro j hj
    simp [imputeCol, hj]

/-- Witness for C3 at the concrete column `c125`, row 124. -/
theorem c3_witness :
    (replaceInfNan c125 ⟨124, by omega⟩).isNaN = true ∧
    imputeCol c125 ⟨124, by omega⟩ = specFullSeriesMean c125 :=
  ⟨by with_unfolding_all decide,
   (c3_impute_uses_full_series_mean c125 ⟨124, by omega⟩ (by with_unfolding_all decide)).1⟩

/-- Reading a column at a valid ℕ index is reading it at the `Fin` index. -/
theorem colAt_fin {n : ℕ} (c : Col n) (j : Fin n) : Col.at c j.val = c j := by
  simp [Col.at]

/-- `bfill` is defined at `i` whenever some row `j ≥ i` is defined. -/
theorem bfill_defined {n : ℕ} (c : Col n) (i j : Fin n) (hij : i.val ≤ j.val)
    (hj : (c j).isNaN = false) : ((bfillCol c) i).isNaN = false := by
  unfold bfillCol
  cases hfs : (List.range (n - i.val)).findSome? (fun k =>
      let v := Col.at c (i.val + k)
      if v.isNaN then none else some v) with
  | none =>
    rw [List.findSome?_eq_none_iff] at hfs
    have hk : j.val - i.val ∈ List.range (n - i.val) := by
      rw [List.mem_range]; omega
    have := hfs _ hk
    simp only at this
    rw [show i.val + (j.val - i.val) = j.val by omega, colAt_fin, hj] at this
    simp at this
  | some v =>
    obtain ⟨a, _, ha⟩ := List.exists_of_findSome?_eq_some hfs
    simp only at ha
    split at ha
    · exact absurd ha (by simp)
    · cases ha
      simp_all

/-- `ffill` is defined at `i` whenever some row `j ≤ i` is defined. -/
theorem ffill_defined {n : ℕ} (c : Col n) (i j : Fin n) (hij : j.val ≤ i.val)
    (hj : (c j).isNaN = false) : ((ffillCol c) i).isNaN = false := by
  unfold ffillCol
  cases hfs : (List.range (i.val + 1)).findSome? (fun k =>
      let v := Col.at c (i.val - k)
      if v.isNaN then none else some v) with
  | none =>
    rw [List.findSome?_eq_none_iff] at hfs
    have hk : i.val - j.val ∈ List.range (i.val + 1) := by
      rw [List.mem_range]; omega
    have := hfs _ hk
    simp only at this
    rw [show i.val - (i.val - j.val) = j.val by omega, colAt_fin, hj] at this
    simp at this
  | some v =>
    obtain ⟨a, _, ha⟩ := List.exists_of_findSome?_eq_some hfs
    simp only at ha
    split at ha
    · exact absurd ha (by simp)
    · cases ha
      simp_all

/-- `bfill` of an all-undefined column stays undefined. -/
theorem bfill_all_nan {n : ℕ} (c : Col n) (hall : ∀ j : Fin n, (c j).isNaN = true)
    (i : Fin n) : (bfillCol c) i = PVal.nan := by
  unfold bfillCol
  have : (List.range (n - i.val)).findSome? (fun k =>
      let v := Col.at c (i.val + k)
      if v.isNaN then none else some v) = none := by
    rw [List.findSome?_eq_none_iff]
    intro k _
    simp only
    split
    · rfl
    · rename_i hnan
      unfold Col.at at hnan ⊢
      split at hnan
      · simp_all
      · simp_all [PVal.isNaN]
  rw [this]
  rfl

/-- `ffill` of an all-undefined column stays undefined. -/
theorem ffill_all_nan {n : ℕ} (c : Col n) (hall : ∀ j : Fin n, (c j).isNaN = true)
    (i : Fin n) : (ffillCol c) i = PVal.nan := by
  unfold ffillCol
  have : (List.range (i.val + 1)).findSome? (fun k =>
      let v := Col.at c (i.val - k)
      if v.isNaN then none else some v) = none := by
    rw [List.findSome?_eq_none_iff]
    intro k _
    simp only
    split
    · rfl
    · rename_i hnan
      unfold Col.at at hnan ⊢
      split at hnan
      · simp_all
      · simp_all [PVal.isNaN]
  rw [this]
  rfl

/-- The backward-then-forward fill pass fully populates any column that
has at least one defined value. -/
theorem fill_defined {n : ℕ} (c : Col n) (j : Fin n) (hj : (c j).isNaN = false)
    (i : Fin n) : ((ffillCol (bfillCol c)) i).isNaN = false := by
  rcases le_or_lt i.val j.val with hij | hij
  · exact ffill_defined (bfillCol c) i i le_rfl (bfill_defined c i j hij hj)
  · exact ffill_defined (bfillCol c) i j (Nat.le_of_lt hij) (bfill_defined c j j le_rfl hj)

/-- A successful feature pipeline always ends with the fill pass. -/
theorem featurePipeline_ok_fill {n : ℕ} (fops : FloatOps) (fr d7 : Frame n)
    (h : featurePipeline fops fr = Except.ok d7) : ∃ d6, d7 = fillFrame d6 := by
  simp only [featurePipeline] at h
  split at h
  · exact absurd h (by simp)
  · exact ⟨_, (Except.ok.inj h).symm⟩

/-- C2 amended: for every input with at least 50 rows on which
`calculate_all_features` returns, the output has exactly the input's row
count and, after the backward-then-forward fill, every column holding at
least one defined value is fully populated; columns with no defined
value at all (such as 200-day indicators on a sub-200-row series) remain
undefined. -/
theorem c2_fill_amended (fops : FloatOps) (df d : DF)
    (h : calcAllFeatures fops df = Except.ok d) (h50 : 50 ≤ df.n) :
    d.n = df.n ∧
    ∀ p ∈ d.cols, (∃ j, (p.2 j).isNaN = false) → ∀ i, (p.2 i).isNaN = false := by
  unfold calcAllFeatures at h
  by_cases he : df.cols.isEmpty
  · rw [if_pos (by simp [he])] at h
    obtain rfl : df = d := Except.ok.inj h
    refine ⟨rfl, ?_⟩
    intro p hp
    rw [List.isEmpty_iff.mp he] at hp
    exact absurd hp (by simp)
  · rw [if_neg (by simp [he]; omega)] at h
    by_cases hr : requiredCols.all (fun c => df.hasCol c)
    · rw [if_pos hr] at h
      cases hfp : featurePipeline fops df.cols with
      | error e => rw [hfp] at h; exact absurd h (by simp)
      | ok d7 =>
        rw [hfp] at h
        obtain rfl : (⟨df.n, d7⟩ : DF) = d := Except.ok.inj h
        obtain ⟨d6, rfl⟩ := featurePipeline_ok_fill fops df.cols d7 hfp
        refine ⟨rfl, ?_⟩
        intro p hp hex i
        obtain ⟨q, hq, rfl⟩ := List.mem_map.mp hp
        show ((ffillCol (bfillCol q.2)) i).isNaN = false
        by_cases hd : ∀ j, (q.2 j).isNaN = true
        · obtain ⟨j, hj⟩ := hex
          have hj2 : ((ffillCol (bfillCol q.2)) j).isNaN = false := hj
          rw [ffill_all_nan (bfillCol q.2) (fun j2 => by
              rw [bfill_all_nan q.2 hd j2]; rfl) j] at hj2
          exact absurd hj2 (by simp [PVal.isNaN])
        · push_neg at hd
          obtain ⟨j, hj⟩ := hd
          exact fill_defined q.2 j (by simpa using hj) i
    · rw [if_neg hr] at h
      exact absurd h (by simp)

/-- C2 counterexample: on a valid 50-row OHLCV series the engine
returns a frame of the same length whose `sma_200` column is undefined
at every row (shown at row 0) even after the fill pass — the claim that
no column contains any undefined value is false. -/
theorem c2_counterexample :
    specValidOHLCV df50 = true ∧ 50 ≤ df50.n ∧
    (match calcAllFeatures idFops df50 with
     | Except.ok d =>
       d.hasCol "sma_200" && (Col.at (d.getCol "sma_200") 0).isNaN && decide (d.n = 50)
     | Except.error _ => false) = true := by
  refine ⟨by with_unfolding_all decide, by decide, ?_⟩
  with_unfolding_all decide

/-- Witness for C2 (amended) at the concrete 50-row series. -/
theorem c2_witness :
    ∃ d, calcAllFeatures idFops df50 = Except.ok d ∧ d.n = df50.n ∧
      ∀ p ∈ d.cols, (∃ j, (p.2 j).isNaN = false) → ∀ i, (p.2 i).isNaN = false := by
  cases hc : calcAllFeatures idFops df50 with
  | error e =>
    have hok : (calcAllFeatures idFops df50).isOk = true := by with_unfolding_all decide
    rw [hc] at hok
    exact absurd hok (by simp [Except.isOk, Except.toBool])
  | ok d =>
    obtain ⟨h1, h2⟩ := c2_fill_amended idFops df50 d hc (by decide)
    exact ⟨d, rfl, h1, h2⟩

/-- Pointwise reading of `allPosCol`. -/
theorem allPosCol_spec {n : ℕ} {c : Col n} (h : allPosCol c = true) (i : Fin n) :
    ∃ q : ℚ, 0 < q ∧ c i = PVal.num q := by
  unfold allPosCol at h
  rw [List.all_eq_true] at h
  have hi := h i (List.mem_finRange i)
  cases hci : c i with
  | num q => exact ⟨q, by rw [hci] at hi; simpa using hi, rfl⟩
  | nan => rw [hci] at hi; simp at hi
  | pinf => rw [hci] at hi; simp at hi
  | ninf => rw [hci] at hi; simp at hi

/-- Looking up the column just assigned. -/
theorem findColF_setColF_self {n : ℕ} (fr : Frame n) (nm : String) (c : Col n) :
    findColF (setColF fr nm c) nm = some c := by
  induction fr with
  | nil => simp [setColF, findColF]
  | cons p rest ih =>
    by_cases h : p.1 = nm
    · simp [setColF, findColF, h]
    · simp only [setColF, h, if_false]
      simpa [findColF, List.find?, h] using ih

/-- Assignment leaves other columns untouched. -/
theorem findColF_setColF_ne {n : ℕ} (fr : Frame n) (nm nm' : String) (c : Col n)
    (h : nm' ≠ nm) : findColF (setColF fr nm c) nm' = findColF fr nm' := by
  induction fr with
  | nil => simp [setColF, findColF, List.find?, Ne.symm h]
  | cons p rest ih =>
    by_cases hp : p.1 = nm
    · subst hp
      simp [setColF, findColF, List.find?, Ne.symm h]
    · by_cases hp' : p.1 = nm'
      · simp [setColF, findColF, List.find?, hp, hp', h]
      · simp only [setColF, hp, if_false]
        simpa [findColF, List.find?, hp'] using ih

/-- Reading the column just assigned. -/
theorem getColF_setColF_self {n : ℕ} (fr : Frame n) (nm : String) (c : Col n) :
    getColF (setColF fr nm c) nm = c := by
  simp [getColF, findColF_setColF_self]

/-- Reading another column after an assignment. -/
theorem getColF_setColF_ne {n : ℕ} (fr : Frame n) (nm nm' : String) (c : Col n)
    (h : nm' ≠ nm) : getColF (setColF fr nm c) nm' = getColF fr nm' := by
  simp [getColF, findColF_setColF_ne fr nm nm' c h]

/-- Column lookup commutes with a value-wise frame map. -/
theorem findColF_map {n m : ℕ} (fr : Frame n) (g : Col n → Col m) (nm : String) :
    findColF (fr.map (fun p => (p.1, g p.2))) nm = (findColF fr nm).map g := by
  induction fr with
  | nil => simp [findColF]
  | cons p rest ih =>
    by_cases h : p.1 = nm
    · simp [findColF, List.find?, h]
    · simpa [findColF, List.find?, h] using ih

/-- Filtering a range by an upper bound keeps an initial range. -/
theorem filter_range_lt (n t : ℕ) :
    (List.range n).filter (fun k => decide (k < t)) = List.range (min t n) := by
  induction n with
  | zero => simp
  | succ m ih =>
    rw [List.range_succ, List.filter_append, ih]
    by_cases h : m < t
    · have h1 : min t (m + 1) = m + 1 := by omega
      have h2 : min t m = m := by omega
      simp [h, h1, h2, List.range_succ]
    · have h1 : min t (m + 1) = min t m := by omega
      simp [h, h1]

/-- In-range ℕ reads hit the column. -/
theorem colAt_lt {n : ℕ} (c : Col n) (k : ℕ) (h : k < n) : Col.at c k = c ⟨k, h⟩ := by
  simp [Col.at, h]

/-- Reads of the all-NaN default column. -/
theorem colAt_const_nan {n : ℕ} (j : ℕ) :
    Col.at (fun _ => PVal.nan : Col n) j = PVal.nan := by
  unfold Col.at
  split <;> rfl

/-- 0/1 indicator columns are everywhere defined. -/
theorem boolCol_defined {n : ℕ} (b : Fin n → Bool) (i : Fin n) :
    ((boolCol b) i).isDefined = true := by
  unfold boolCol
  split <;> rfl

/-- `getD` on an initial range is the index itself. -/
theorem getD_range (m j : ℕ) (hj : j < m) : (List.range m).getD j 0 = j := by
  simp [List.getD, List.getElem?_range hj]

/-- A negative (forward) shift reads row `i + fd`, NaN past the end. -/
theorem shift_neg_val {n : ℕ} (fd : ℕ) (c : Col n) (i : Fin n) :
    shiftCol (-(fd : ℤ)) c i = if h : i.val + fd < n then c ⟨i.val + fd, h⟩ else PVal.nan := by
  unfold shiftCol
  by_cases h : i.val + fd < n
  · rw [dif_pos (by constructor <;> omega), dif_pos h]
    congr 1
    apply Fin.ext
    simp
    omega
  · rw [dif_neg (by omega), dif_neg h]

/-- The row count of a filtered frame. -/
theorem filterRows_n (df3 : DF) (keep : ℕ → Bool) :
    (df3.filterRows keep).n = ((List.range df3.n).filter keep).length := rfl

/-- When the kept rows are exactly the initial segment `0..m-1`, reading
any column of the filtered frame at `j < m` reads the original frame at
`j`. -/
theorem getCol_filterRows_at (df3 : DF) (keep : ℕ → Bool) (name : String) (m j : ℕ)
    (hks : (List.range df3.n).filter keep = List.range m) (hj : j < m) :
    Col.at ((df3.filterRows keep).getCol name) j = Col.at (df3.getCol name) j := by
  have hmap' : findColF ((df3.filterRows keep).cols) name =
      (findColF df3.cols name).map
        (fun c => fun j' => Col.at c (((List.range df3.n).filter keep).getD j'.val 0)) :=
    findColF_map df3.cols
      (fun c => fun j' => Col.at c (((List.range df3.n).filter keep).getD j'.val 0)) name
  have hjn : j < (df3.filterRows keep).n := by
    rw [filterRows_n, hks, List.length_range]
    exact hj
  show Col.at (getColF ((df3.filterRows keep).cols) name) j =
    Col.at (getColF df3.cols name) j
  unfold getColF
  rw [hmap']
  cases hf : findColF df3.cols name with
  | none =>
    show Col.at (fun _ => PVal.nan) j = Col.at (fun _ => PVal.nan) j
    rw [colAt_const_nan, colAt_const_nan]
  | some c =>
    show Col.at (fun j' => Col.at c
      (((List.range df3.n).filter keep).getD j'.val 0)) j = Col.at c j
    rw [colAt_lt _ j hjn]
    show Col.at c (((List.range df3.n).filter keep).getD j 0) = Col.at c j
    rw [hks, getD_range m j hj]

/-- C5: label construction of `prepare_training_data` on a
feature-augmented series with positive close prices: exactly the
`forecast_days` tail rows (those whose forward shift has no future
value) are dropped; on every surviving row `future_return` is
`close[t+horizon]/close[t] - 1`, `target` is 1 exactly when
`future_return` exceeds the class threshold and 0 otherwise,
`target_return` equals `future_return`, and all other columns are
row-wise preserved; the `(horizon_days, return_threshold)` profiles are
intraday `(1, 0.01)`, swing `(5, 0.02)`, position `(20, 0.05)`. -/
theorem c5_label_construction (ptype : String) (fd : ℕ) (dfF d : DF)
    (hd : d = labelFrame ptype fd dfF)
    (hcl : allPosCol (dfF.getCol "close") = true) :
    d.n = dfF.n - fd ∧
    (∀ j : ℕ, j + fd < dfF.n →
      ∃ q1 q2 : ℚ, 0 < q1 ∧
        Col.at (dfF.getCol "close") j = PVal.num q1 ∧
        Col.at (dfF.getCol "close") (j + fd) = PVal.num q2 ∧
        Col.at (d.getCol "future_return") j = PVal.num (q2 / q1 - 1) ∧
        Col.at (d.getCol "target") j =
          (if getThreshold ptype < q2 / q1 - 1 then PVal.num 1 else PVal.num 0) ∧
        Col.at (d.getCol "target_return") j = PVal.num (q2 / q1 - 1)) ∧
    (∀ name, name ≠ "future_return" → name ≠ "target" → name ≠ "target_return" →
      ∀ j : ℕ, j < dfF.n - fd →
        Col.at (d.getCol name) j = Col.at (dfF.getCol name) j) ∧
    (horizonsGet "intraday" = 1 ∧ getThreshold "intraday" = 1 / 100 ∧
     horizonsGet "swing" = 5 ∧ getThreshold "swing" = 2 / 100 ∧
     horizonsGet "position" = 20 ∧ getThreshold "position" = 5 / 100) := by
  subst hd
  -- name the intermediate frames of labelFrame
  have hpos := allPosCol_spec hcl
  set FR : Col dfF.n := colAddConst (-1)
    (colDiv (shiftCol (-(fd : ℤ)) (dfF.getCol "close")) (dfF.getCol "close")) with hFRdef
  set d1x : DF := dfF.setCol "future_return" FR with hd1
  set tgtx : Col dfF.n :=
    boolCol (fun i => PVal.gt (d1x.getCol "future_return" i)
      (PVal.num (getThreshold ptype))) with htgt
  set d2x : DF := d1x.setCol "target" tgtx with hd2
  set d3x : DF := d2x.setCol "target_return" (d2x.getCol "future_return") with hd3
  set keepx : ℕ → Bool := fun k =>
    (Col.at (d3x.getCol "target") k).isDefined &&
    (Col.at (d3x.getCol "target_return") k).isDefined with hkeep
  have hlf : labelFrame ptype fd dfF = d3x.filterRows keepx := rfl
  have hFR1 : d1x.getCol "future_return" = FR := by
    show getColF (setColF dfF.cols "future_return" FR) "future_return" = FR
    exact getColF_setColF_self _ _ _
  have hFR2 : d2x.getCol "future_return" = FR := by
    show getColF (setColF d1x.cols "target" tgtx) "future_return" = FR
    rw [getColF_setColF_ne _ _ _ _ (by decide)]
    exact hFR1
  have hFR3 : d3x.getCol "future_return" = FR := by
    show getColF (setColF d2x.cols "target_return" (d2x.getCol "future_return"))
      "future_return" = FR
    rw [getColF_setColF_ne _ _ _ _ (by decide)]
    exact hFR2
  have hT3 : d3x.getCol "target" = tgtx := by
    show getColF (setColF d2x.cols "target_return" (d2x.getCol "future_return"))
      "target" = tgtx
    rw [getColF_setColF_ne _ _ _ _ (by decide)]
    exact getColF_setColF_self _ _ _
  have hTR3 : d3x.getCol "target_return" = d2x.getCol "future_return" := by
    show getColF (setColF d2x.cols "target_return" (d2x.getCol "future_return"))
      "target_return" = _
    exact getColF_setColF_self _ _ _
  have htgt2 : tgtx = boolCol (fun i =>
      PVal.gt (FR i) (PVal.num (getThreshold ptype))) := by
    rw [htgt, hFR1]
  have hFRval : ∀ (j : Fin dfF.n) (hj : j.val + fd < dfF.n),
      ∃ q1 q2 : ℚ, 0 < q1 ∧ dfF.getCol "close" j = PVal.num q1 ∧
        dfF.getCol "close" ⟨j.val + fd, hj⟩ = PVal.num q2 ∧
        FR j = PVal.num (q2 / q1 - 1) := by
    intro j hj
    obtain ⟨q1, hq1, hc1⟩ := hpos j
    obtain ⟨q2, hq2, hc2⟩ := hpos ⟨j.val + fd, hj⟩
    refine ⟨q1, q2, hq1, hc1, hc2, ?_⟩
    rw [hFRdef]
    show PVal.add (PVal.num (-1))
      (PVal.div (shiftCol (-(fd : ℤ)) (dfF.getCol "close") j) (dfF.getCol "close" j)) = _
    rw [shift_neg_val fd (dfF.getCol "close") j, dif_pos hj, hc1, hc2]
    show PVal.add (PVal.num (-1))
      (if q1 = 0 then (if q2 = 0 then PVal.nan else if 0 < q2 then PVal.pinf else PVal.ninf)
       else PVal.num (q2 / q1)) = _
    rw [if_neg (ne_of_gt hq1)]
    show PVal.num (-1 + q2 / q1) = PVal.num (q2 / q1 - 1)
    congr 1
    ring
  have hFRnan : ∀ (j : Fin dfF.n), ¬(j.val + fd < dfF.n) → FR j = PVal.nan := by
    intro j hjn
    rw [hFRdef]
    show PVal.add (PVal.num (-1))
      (PVal.div (shiftCol (-(fd : ℤ)) (dfF.getCol "close") j) (dfF.getCol "close" j)) = _
    obtain ⟨q1, _, hc1⟩ := hpos j
    rw [shift_neg_val fd (dfF.getCol "close") j, dif_neg hjn, hc1]
    rfl
  have hkeepx : ∀ k ∈ List.range dfF.n, keepx k = decide (k + fd < dfF.n) := by
    intro k hk
    rw [List.mem_range] at hk
    rw [hkeep]
    show ((Col.at (d3x.getCol "target") k).isDefined &&
      (Col.at (d3x.getCol "target_return") k).isDefined) = _
    rw [hT3, htgt2, hTR3, hFR2, colAt_lt _ k hk, colAt_lt _ k hk, boolCol_defined]
    by_cases hkf : k + fd < dfF.n
    · obtain ⟨q1, q2, _, _, _, hfr⟩ := hFRval ⟨k, hk⟩ hkf
      rw [hfr]
      simp [hkf, PVal.isDefined, PVal.isNaN]
    · rw [hFRnan ⟨k, hk⟩ hkf]
      simp [hkf, PVal.isDefined, PVal.isNaN]
  have hks : (List.range d3x.n).filter keepx = List.range (dfF.n - fd) := by
    show (List.range dfF.n).filter keepx = _
    rw [List.filter_congr hkeepx]
    rw [List.filter_congr (fun k hk => by
      simp only [decide_eq_decide]
      omega : ∀ k ∈ List.range dfF.n,
        decide (k + fd < dfF.n) = decide (k < dfF.n - fd))]
    rw [filter_range_lt]
    congr 1
    omega
  refine ⟨?_, ?_, ?_,
    by simp [horizonsGet], by simp [getThreshold], by simp [horizonsGet],
    by simp [getThreshold], by simp [horizonsGet], by simp [getThreshold]⟩
  · rw [hlf, filterRows_n, hks, List.length_range]
  · intro j hj
    have hjn : j < dfF.n := by omega
    obtain ⟨q1, q2, hq1, hc1, hc2, hfr⟩ := hFRval ⟨j, hjn⟩ hj
    refine ⟨q1, q2, hq1, ?_, ?_, ?_, ?_, ?_⟩
    · rw [colAt_lt _ j hjn]
      exact hc1
    · rw [colAt_lt _ (j + fd) hj]
      exact hc2
    · rw [hlf, getCol_filterRows_at d3x keepx "future_return" (dfF.n - fd) j hks (by omega),
        hFR3, colAt_lt _ j hjn]
      exact hfr
    · rw [hlf, getCol_filterRows_at d3x keepx "target" (dfF.n - fd) j hks (by omega),
        hT3, htgt2, colAt_lt _ j hjn]
      show (if PVal.gt (FR ⟨j, hjn⟩) (PVal.num (getThreshold ptype)) = true
        then PVal.num 1 else PVal.num 0) = _
      rw [hfr]
      show (if decide (getThreshold ptype < q2 / q1 - 1) = true
        then PVal.num 1 else PVal.num 0) = _
      simp only [decide_eq_true_eq]
    · rw [hlf, getCol_filterRows_at d3x keepx "target_return" (dfF.n - fd) j hks (by omega),
        hTR3, hFR2, colAt_lt _ j hjn]
      exact hfr
  · intro name h1 h2 h3 j hj
    rw [hlf, getCol_filterRows_at d3x keepx name (dfF.n - fd) j hks hj]
    have hfind : findColF d3x.cols name = findColF dfF.cols name := by
      show findColF (setColF d2x.cols "target_return" (d2x.getCol "future_return")) name = _
      rw [findColF_setColF_ne _ _ _ _ h3]
      show findColF (setColF d1x.cols "target" tgtx) name = _
      rw [findColF_setColF_ne _ _ _ _ h2]
      show findColF (setColF dfF.cols "future_return" FR) name = _
      rw [findColF_setColF_ne _ _ _ _ h1]
    show Col.at (getColF d3x.cols name) j = Col.at (getColF dfF.cols name) j
    unfold getColF
    rw [hfind]
    exact rfl

/-- Witness for C5 at the concrete 10-row series with the swing profile. -/
theorem c5_witness :
    allPosCol (df10.getCol "close") = true ∧
    ((labelFrame "swing" 5 df10).n = df10.n - 5 ∧
     (∀ j : ℕ, j + 5 < df10.n →
       ∃ q1 q2 : ℚ, 0 < q1 ∧
         Col.at (df10.getCol "close") j = PVal.num q1 ∧
         Col.at (df10.getCol "close") (j + 5) = PVal.num q2 ∧
         Col.at ((labelFrame "swing" 5 df10).getCol "future_return") j =
           PVal.num (q2 / q1 - 1) ∧
         Col.at ((labelFrame "swing" 5 df10).getCol "target") j =
           (if getThreshold "swing" < q2 / q1 - 1 then PVal.num 1 else PVal.num 0) ∧
         Col.at ((labelFrame "swing" 5 df10).getCol "target_return") j =
           PVal.num (q2 / q1 - 1)) ∧
     (∀ name, name ≠ "future_return" → name ≠ "target" → name ≠ "target_return" →
       ∀ j : ℕ, j < df10.n - 5 →
         Col.at ((labelFrame "swing" 5 df10).getCol name) j =
           Col.at (df10.getCol name) j) ∧
     (horizonsGet "intraday" = 1 ∧ getThreshold "intraday" = 1 / 100 ∧
      horizonsGet "swing" = 5 ∧ getThreshold "swing" = 2 / 100 ∧
      horizonsGet "position" = 20 ∧ getThreshold "position" = 5 / 100)) :=
  ⟨by with_unfolding_all decide,
   c5_label_construction "swing" 5 df10 (labelFrame "swing" 5 df10) rfl
     (by with_unfolding_all decide)⟩

/-- C6: on every successful inference call, `confidence` is the
arithmetic mean of the two classifiers' positive-class probabilities on
the scaled latest feature row, `predicted_return` the regressor's
output, `direction` is up exactly when confidence exceeds 0.5,
`target_price = current_price * (1 + predicted_return)`, and the stop
loss is `current_price ∓ 2·ATR_14` when the feature frame carries
`atr_14`, else a flat 3% in the adverse direction. -/
theorem c6_inference_formulas (fops : FloatOps) (s : PredictorState)
    (sc : ScalerParams) (m : ModelFns) (df dfF : DF) (r : PredictionResult)
    (hsc : s.scaler = some sc) (hm : s.models = some m)
    (hc : calcAllFeatures fops df = Except.ok dfF)
    (hr : predictFn fops s df = Except.ok r) :
    r.confidence = (m.xgbClass (scalerTransform sc (latestFeatureRow s.feature_names dfF)) +
      m.lgbClass (scalerTransform sc (latestFeatureRow s.feature_names dfF))) / 2 ∧
    r.predicted_return =
      m.xgbReg (scalerTransform sc (latestFeatureRow s.feature_names dfF)) ∧
    r.direction = (if (1 : ℚ) / 2 < r.confidence then "up" else "down") ∧
    r.current_price = Col.at (df.getCol "close") (df.n - 1) ∧
    r.target_price = PVal.mul r.current_price (PVal.num (1 + r.predicted_return)) ∧
    (hasColF dfF.cols "atr_14" = true →
      r.stop_loss = (if r.direction = "up"
        then PVal.sub r.current_price
          (PVal.mul (PVal.num 2) (Col.at (dfF.getCol "atr_14") (dfF.n - 1)))
        else PVal.add r.current_price
          (PVal.mul (PVal.num 2) (Col.at (dfF.getCol "atr_14") (dfF.n - 1))))) ∧
    (hasColF dfF.cols "atr_14" = false →
      r.stop_loss = (if r.direction = "up"
        then PVal.mul r.current_price (PVal.num (97 / 100))
        else PVal.mul r.current_price (PVal.num (103 / 100)))) := by
  unfold predictFn at hr
  simp only [hc, hsc, hm] at hr
  split at hr
  · exact absurd hr (by simp)
  · split at hr
    · exact absurd hr (by simp)
    · split at hr
      · exact absurd hr (by simp)
      · obtain rfl := (Except.ok.inj hr).symm
        refine ⟨rfl, rfl, rfl, rfl, rfl, ?_, ?_⟩
        · intro hatr
          show (if hasColF dfF.cols "atr_14" = true then _ else _) = _
          rw [if_pos hatr]
        · intro hatr
          show (if hasColF dfF.cols "atr_14" = true then _ else _) = _
          rw [if_neg (by rw [hatr]; exact Bool.false_ne_true)]

/-- Witness for C6 at the concrete trained state `s6` on `df10`. -/
theorem c6_witness :
    predictFn idFops s6 df10 = Except.ok r6 ∧
    r6.confidence =
      (m6.xgbClass (scalerTransform ⟨[0], [1]⟩ (latestFeatureRow s6.feature_names df10)) +
       m6.lgbClass (scalerTransform ⟨[0], [1]⟩ (latestFeatureRow s6.feature_names df10))) / 2 ∧
    r6.predicted_return =
      m6.xgbReg (scalerTransform ⟨[0], [1]⟩ (latestFeatureRow s6.feature_names df10)) ∧
    r6.direction = (if (1 : ℚ) / 2 < r6.confidence then "up" else "down") ∧
    r6.current_price = Col.at (df10.getCol "close") (df10.n - 1) ∧
    r6.target_price = PVal.mul r6.current_price (PVal.num (1 + r6.predicted_return)) ∧
    (hasColF df10.cols "atr_14" = false →
      r6.stop_loss = (if r6.direction = "up"
        then PVal.mul r6.current_price (PVal.num (97 / 100))
        else PVal.mul r6.current_price (PVal.num (103 / 100)))) := by
  have hp : predictFn idFops s6 df10 = Except.ok r6 := by with_unfolding_all decide
  have h := c6_inference_formulas idFops s6 ⟨[0], [1]⟩ m6 df10 df10 r6 rfl rfl
    (by with_unfolding_all rfl) hp
  exact ⟨hp, h.1, h.2.1, h.2.2.1, h.2.2.2.1, h.2.2.2.2.1, h.2.2.2.2.2.2⟩

/-- The bounded search returns the first trading day at or after the
candidate. -/
theorem nextOpenFrom_spec : ∀ (fuel c e : ℕ), nextOpenFrom fuel c = some e →
    c ≤ e ∧ isTradingDay e = true ∧ ∀ x, c ≤ x → x < e → isTradingDay x = false := by
  intro fuel
  induction fuel with
  | zero => intro c e h; exact absurd h (by simp [nextOpenFrom])
  | succ f ih =>
    intro c e h
    unfold nextOpenFrom at h
    by_cases hc : isTradingDay c
    · rw [if_pos hc] at h
      obtain rfl := Option.some.inj h
      exact ⟨le_rfl, hc, fun x hx1 hx2 => by omega⟩
    · rw [if_neg hc] at h
      obtain ⟨h1, h2, h3⟩ := ih (c + 1) e h
      refine ⟨by omega, h2, fun x hx1 hx2 => ?_⟩
      rcases eq_or_lt_of_le hx1 with rfl | hgt
      · exact Bool.not_eq_true _ ▸ (by simpa using hc)
      · exact h3 x (by omega) hx2

/-- `nextOpenDay` lands on the first trading day strictly after `d`. -/
theorem nextOpenDay_spec (d e : ℕ) (h : nextOpenDay d = some e) :
    d < e ∧ isTradingDay e = true ∧ ∀ x, d < x → x < e → isTradingDay x = false := by
  obtain ⟨h1, h2, h3⟩ := nextOpenFrom_spec 366 (d + 1) e h
  exact ⟨by omega, h2, fun x hx1 hx2 => h3 x (by omega) hx2⟩

/-- A window with no trading days counts zero. -/
theorem openCntFrom_zero (a : ℕ) : ∀ (len : ℕ),
    (∀ x, a < x → x ≤ a + len → isTradingDay x = false) → openCntFrom a len = 0 := by
  intro len
  induction len with
  | zero => intro _; rfl
  | succ l ih =>
    intro h
    show openCntFrom a l + (if isTradingDay (a + l + 1) then 1 else 0) = 0
    rw [ih (fun x hx1 hx2 => h x hx1 (by omega)),
      if_neg (by rw [h (a + l + 1) (by omega) (by omega)]; exact Bool.false_ne_true)]

/-- Trading-day counts add over consecutive windows. -/
theorem openCntFrom_add (a m : ℕ) : ∀ (k : ℕ),
    openCntFrom a (m + k) = openCntFrom a m + openCntFrom (a + m) k := by
  intro k
  induction k with
  | zero => rfl
  | succ l ih =>
    show openCntFrom a (m + l + 1) = _
    show openCntFrom a (m + l) + (if isTradingDay (a + (m + l) + 1) then 1 else 0) = _
    rw [ih]
    show _ = openCntFrom a m +
      (openCntFrom (a + m) l + (if isTradingDay (a + m + l + 1) then 1 else 0))
    rw [show a + (m + l) + 1 = a + m + l + 1 by omega]
    omega

/-- An interval whose only trading day is its right end counts one. -/
theorem openCount_singleton (d e : ℕ) (hde : d < e) (he : isTradingDay e = true)
    (hgap : ∀ x, d < x → x < e → isTradingDay x = false) : openCount d e = 1 := by
  unfold openCount
  rw [show e - d = (e - d - 1) + 1 by omega]
  show openCntFrom d (e - d - 1) + (if isTradingDay (d + (e - d - 1) + 1) then 1 else 0) = 1
  rw [show d + (e - d - 1) + 1 = e by omega,
    openCntFrom_zero d (e - d - 1) (fun x hx1 hx2 => hgap x hx1 (by omega)),
    if_pos he]

/-- `openCount` is additive over `(a, b]` and `(b, c]`. -/
theorem openCount_append (a b c : ℕ) (hab : a ≤ b) (hbc : b ≤ c) :
    openCount a c = openCount a b + openCount b c := by
  unfold openCount
  rw [show c - a = (b - a) + (c - b) by omega, openCntFrom_add]
  rw [show a + (b - a) = b by omega]

/-- Iterating "next open day" `n ≥ 1` times lands on a trading day
strictly ahead with exactly `n` trading days in between. -/
theorem addOpenIter_spec : ∀ (n d r : ℕ), 1 ≤ n → addOpenIter d n = some r →
    isTradingDay r = true ∧ d < r ∧ openCount d r = n := by
  intro n
  induction n with
  | zero => intro d r h; omega
  | succ k ih =>
    intro d r _ h
    by_cases hk : k = 0
    · subst hk
      have h' : nextOpenDay d = some r := h
      obtain ⟨h1, h2, h3⟩ := nextOpenDay_spec d r h'
      exact ⟨h2, h1, openCount_singleton d r h1 h2 h3⟩
    · unfold addOpenIter at h
      cases he : addOpenIter d k with
      | none => rw [he] at h; exact absurd h (by simp)
      | some e =>
        rw [he] at h
        simp only [Option.some_bind] at h
        obtain ⟨hopen, hde, hcnt⟩ := ih d e (by omega) he
        obtain ⟨h1, h2, h3⟩ := nextOpenDay_spec e r h
        refine ⟨h2, by omega, ?_⟩
        rw [openCount_append d e r (by omega) (by omega), hcnt,
          openCount_singleton e r h1 h2 h3]

/-- A two-closed-day prefix (e.g. a weekend) is skipped by the search. -/
theorem nextOpenFrom_three (f c : ℕ) (h1 : isTradingDay c = false)
    (h2 : isTradingDay (c + 1) = false) (h3 : isTradingDay (c + 2) = true) :
    nextOpenFrom (f + 3) c = some (c + 2) := by
  show nextOpenFrom (f + 2 + 1) c = some (c + 2)
  unfold nextOpenFrom
  rw [if_neg (by simp [h1])]
  show nextOpenFrom (f + 1 + 1) (c + 1) = some (c + 2)
  unfold nextOpenFrom
  rw [if_neg (by simp [h2])]
  show nextOpenFrom (f + 0 + 1) (c + 1 + 1) = some (c + 2)
  unfold nextOpenFrom
  rw [show c + 1 + 1 = c + 2 by omega, if_pos h3]



/-- C7: `add_trading_days(start, n)` with `n ≥ 1` advances to a trading
day strictly after `start` with exactly `n` trading days in
`(start, result]` — i.e. by exactly `n` business days, skipping
weekends and the holiday calendar; a Friday plus one trading day is the
following Monday whenever that Monday is not a holiday; and from the day
before a holiday, one trading day lands strictly after the holiday on
the next open day, never on the holiday itself. -/
theorem c7_add_trading_days :
    (∀ d n r, 1 ≤ n → addTradingDays d n = some r →
      isTradingDay r = true ∧ d < r ∧ openCount d r = n) ∧
    (∀ d, weekday d = 4 → isHoliday (d + 3) = false →
      addTradingDays d 1 = some (d + 3)) ∧
    (∀ d r, isHoliday (d + 1) = true → addTradingDays d 1 = some r →
      d + 2 ≤ r ∧ isTradingDay r = true ∧
      ∀ x, d < x → x < r → isTradingDay x = false) := by
  refine ⟨?_, ?_, ?_⟩
  · intro d n r hn h
    unfold addTradingDays at h
    rw [if_neg (by omega)] at h
    exact addOpenIter_spec n d r hn h
  · intro d hw hh
    have hw1 : isTradingDay (d + 1) = false := by
      unfold isTradingDay
      rw [if_pos (by unfold weekday at hw ⊢; omega)]
    have hw2 : isTradingDay (d + 1 + 1) = false := by
      unfold isTradingDay
      rw [if_pos (by unfold weekday at hw ⊢; omega)]
    have hw3 : isTradingDay (d + 1 + 2) = true := by
      unfold isTradingDay
      rw [if_neg (by unfold weekday at hw ⊢; omega),
        if_neg (by rw [show d + 1 + 2 = d + 3 by omega, hh]; exact Bool.false_ne_true)]
    have e1 : addTradingDays d 1 = addOpenIter d 1 := rfl
    have e2 : addOpenIter d 1 = nextOpenDay d := rfl
    have e3 : nextOpenDay d = nextOpenFrom 366 (d + 1) := rfl
    rw [e1, e2, e3, show (366 : ℕ) = 363 + 3 by omega,
      show d + 3 = d + 1 + 2 by omega]
    exact nextOpenFrom_three 363 (d + 1) hw1 hw2 hw3
  · intro d r hh h
    unfold addTradingDays at h
    rw [if_neg (by omega)] at h
    have h' : nextOpenDay d = some r := h
    obtain ⟨h1, h2, h3⟩ := nextOpenDay_spec d r h'
    have hne : isTradingDay (d + 1) = false := by
      unfold isTradingDay
      by_cases hw : 5 ≤ weekday (d + 1)
      · rw [if_pos hw]
      · rw [if_neg hw, if_pos hh]
    refine ⟨?_, h2, h3⟩
    by_contra hlt
    have hr1 : r = d + 1 := by omega
    rw [hr1] at h2
    rw [h2] at hne
    exact Bool.noConfusion hne

/-- Witness for C7: Friday 2025-12-26 (day 20448) plus one trading day
is Monday 2025-12-29; Wednesday 2025-12-24 (day 20446) plus one trading
day skips Christmas and lands on the 26th. -/
theorem c7_witness :
    (isTradingDay 20451 = true ∧ 20448 < 20451 ∧ openCount 20448 20451 = 1) ∧
    addTradingDays 20448 1 = some (20448 + 3) ∧
    (20446 + 2 ≤ 20448 ∧ isTradingDay 20448 = true ∧
      ∀ x, 20446 < x → x < 20448 → isTradingDay x = false) :=
  ⟨c7_add_trading_days.1 20448 1 20451 (by decide) (by decide),
   c7_add_trading_days.2.1 20448 (by decide) (by decide),
   c7_add_trading_days.2.2 20446 20448 (by decide) (by decide)⟩

end StockPred
